import Mathlib

/-!
# Verification of the lisp interpreter evaluator core

A shallow embedding of `src/lisp_interpreter.py` and `src/lisp_builtins.py`
(a CS61A-style Scheme interpreter).  Pure Python functions become Lean
functions; the mutable frame/promise heap becomes an explicit `State` that is
threaded through a fueled evaluator (Python's unbounded recursion becomes a
`fuel : Nat` parameter; exhausting it yields the extra result `timeout`).

Modelling conventions, fixed once here:

* Python `str` atoms (symbols and lisp strings share the host type `str`) are
  `Value.pystr id s`: `s` is the text (a lisp string carries its surrounding
  quotes, exactly as in the source), and `id` is an allocation identity.
  CPython's `is` on two runtime-built multi-character strings is object
  identity; distinct allocations receive distinct `id`s.  (CPython interns
  some identifier-like and one-character strings; no lisp string — always at
  least two characters incl. quotes — is interned, and no embedded code path
  applies `is` to two symbols, so the `id`-based model is faithful wherever
  it is consulted.)
* Numbers are modelled as `Int` (the spec's Integer variant); floating-point
  values are out of scope of this development.
* `Pair` objects and procedure objects likewise carry an identity `id` used
  only by Python `is` (i.e. by `eq?`).  The evaluator itself never consults
  these identities (no embedded evaluator operation branches on them), so
  pairs built inside the evaluator are given id 0.
* Python `None` (the interpreter's "undefined") is `Value.undefined`.
* `Thunk` objects of the tail-call trampoline are `Value.thunkV`, since in
  Python they flow through the same dynamically-typed result channel.
* Frames live in `State.frames` (a frame's "pointer" is its index; frames are
  only ever appended, so parent indices stay valid); promises live in
  `State.promises`.  `Pair` mutation (`set-car!`/`set-cdr!`) is not exercised
  by any claim and pairs are embedded immutably.
-/

/-- Python exception classes relevant to the interpreter: `lispError`
(with an optional message — `raise lispError` without arguments carries
none) and any other host-level exception (`TypeError`, `AttributeError`,
`ZeroDivisionError`, ...), abstracted with a descriptive string. -/
inductive Err where
  | lispErr (msg : Option String)
  | hostErr (msg : String)
deriving DecidableEq, Repr

/-- `lispError` carrying an actual human-readable message. -/
def Err.carriesMsg : Err → Bool
  | .lispErr (some _) => true
  | _ => false

/-- Runtime values of the interpreter (see module header for conventions). -/
inductive Value where
  | pystr (id : Nat) (s : String)
  | num (n : Int)
  | pybool (b : Bool)
  | nil
  | undefined
  | pair (id : Nat) (first second : Value)
  | builtinP (id : Nat) (name : String) (useEnv : Bool)
  | lambdaP (id : Nat) (formals body : Value) (env : Nat)
  | muP (id : Nat) (formals body : Value)
  | macroP (id : Nat) (formals body : Value) (env : Nat)
  | promiseV (pid : Nat)
  | thunkV (expr : Value) (env : Nat)
deriving DecidableEq, Repr

/-- Result of a fueled computation: a normal value, a raised exception, or
fuel exhaustion (Python just keeps running; `timeout` is the modelling
artifact standing for "needs more fuel"). -/
inductive ROut (α : Type) where
  | ok (a : α)
  | err (e : Err)
  | timeout
deriving DecidableEq, Repr

/-- An environment frame: `bindings` is the symbol→value dict (association
list with overwrite-on-define), `parent` the parent frame index
(`none` for the global frame). -/
structure FrameD where
  bindings : List (String × Value)
  parent : Option Nat
deriving DecidableEq, Repr

/-- The mutable state of a `Promise` object: `expression`/`envRef` are the
captured expression and environment (fields hold `none` once dropped),
`value` the memoized result (absent before the first force). -/
structure PromiseD where
  expression : Option Value
  envRef : Option Nat
  value : Option Value
deriving DecidableEq, Repr

/-- The interpreter heap: all frames and all promises, indexed by position. -/
structure State where
  frames : List FrameD
  promises : List PromiseD
deriving DecidableEq, Repr

/-- `bindings[symbol] = value` on a Python dict: overwrite an existing key or
append a fresh one. -/
def defineBind : List (String × Value) → String → Value → List (String × Value)
  | [], k, v => [(k, v)]
  | (k0, v0) :: rest, k, v =>
      if k0 = k then (k0, v) :: rest else (k0, v0) :: defineBind rest k v

/-- Dict lookup: `bindings[symbol]` / `symbol in bindings`. -/
def lookupBind : List (String × Value) → String → Option Value
  | [], _ => none
  | (k0, v0) :: rest, k => if k0 = k then some v0 else lookupBind rest k

/-! ## Pure predicates from `lisp_builtins.py` -/

/-- `lisp_booleanp` (lisp_builtins.py:42). -/
def lisp_booleanp : Value → Bool
  | .pybool _ => true
  | _ => false

/-- `lisp_truep` (lisp_builtins.py:46): everything except `False` is true. -/
def lisp_truep (v : Value) : Bool :=
  v ≠ .pybool false

/-- `lisp_falsep` (lisp_builtins.py:50): only `False` is false. -/
def lisp_falsep (v : Value) : Bool :=
  v = .pybool false

/-- `lisp_pairp` (lisp_builtins.py:76). -/
def lisp_pairp : Value → Bool
  | .pair _ _ _ => true
  | _ => false

/-- `lisp_nullp` (lisp_builtins.py:99). -/
def lisp_nullp : Value → Bool
  | .nil => true
  | _ => false

/-- Python `s.startswith('"')`: the prefix is a single character, so this is
exactly "the first character is a double quote". -/
def startsWithQuote (s : String) : Bool :=
  match s.data with
  | [] => false
  | c :: _ => c = '"'

/-- `lisp_stringp` (lisp_builtins.py:170): a Python `str` whose text starts
with a double quote. -/
def lisp_stringp : Value → Bool
  | .pystr _ s => startsWithQuote s
  | _ => false

/-- `lisp_symbolp` (lisp_builtins.py:174): a Python `str` that is not a lisp
string. -/
def lisp_symbolp : Value → Bool
  | .pystr _ s => !(startsWithQuote s)
  | _ => false

/-- `lisp_numberp` (lisp_builtins.py:179): a real number that is not a
boolean (numbers are modelled as `Int`). -/
def lisp_numberp : Value → Bool
  | .num _ => true
  | _ => false

/-- `lisp_promisep` (lisp_builtins.py:85). -/
def lisp_promisep : Value → Bool
  | .promiseV _ => true
  | _ => false

/-- `lisp_listp` (lisp_builtins.py:103): nil-terminated chain of pairs. -/
def lisp_listp : Value → Bool
  | .nil => true
  | .pair _ _ second => lisp_listp second
  | _ => false

/-- `lisp_atomp` (lisp_builtins.py:326). -/
def lisp_atomp (x : Value) : Bool :=
  lisp_booleanp x || lisp_numberp x || lisp_symbolp x ||
    lisp_nullp x || lisp_stringp x

/-- `self_evaluating` (lisp_interpreter.py:42): a non-symbol atom, or the
Python `None` bound to `undefined`. -/
def self_evaluating (expr : Value) : Bool :=
  (lisp_atomp expr && !(lisp_symbolp expr)) || expr = .undefined

/-! ## Python object identity, equality, and printing -/

/-- Python `is`.  Booleans, `None` and the reader's `nil` are singletons, so
identity is value equality; heap objects compare by allocation id.  The
`num` clause is never consulted by embedded code (`eq?` handles two numbers
with `==` before falling through to `is`), and two `thunkV`s are never
compared at all; both clauses are given the structural reading. -/
def pyIs : Value → Value → Bool
  | .pystr i _, .pystr j _ => i = j
  | .num a, .num b => a = b
  | .pybool a, .pybool b => a = b
  | .nil, .nil => true
  | .undefined, .undefined => true
  | .pair i _ _, .pair j _ _ => i = j
  | .builtinP i _ _, .builtinP j _ _ => i = j
  | .lambdaP i _ _ _, .lambdaP j _ _ _ => i = j
  | .muP i _ _, .muP j _ _ => i = j
  | .macroP i _ _ _, .macroP j _ _ _ => i = j
  | .promiseV i, .promiseV j => i = j
  | .thunkV e n, .thunkV f m => e = f && n = m
  | _, _ => false

/-- Python `==` on interpreter values.  `str` compares text (ignoring
identity); `Pair.__eq__` (reader class, modelled from the spec: equality of
pairs is structural) recurses; `True == 1` holds in Python; classes without
`__eq__` (procedures, promises, thunks) fall back to identity. -/
def pyEq : Value → Value → Bool
  | .pystr _ a, .pystr _ b => a = b
  | .num a, .num b => a = b
  | .pybool a, .pybool b => a = b
  | .pybool a, .num b => (if a then 1 else 0) = b
  | .num a, .pybool b => a = (if b then 1 else 0)
  | .nil, .nil => true
  | .undefined, .undefined => true
  | .pair _ a b, .pair _ c d => pyEq a c && pyEq b d
  | x, y => pyIs x y

/-- Python `type(x) == type(y)`: symbols and lisp strings share the host
type `str`; `MacroProcedure` is a distinct (sub)class from
`LambdaProcedure`, so exact type comparison separates all constructors. -/
def pyTypeTag : Value → Nat
  | .pystr _ _ => 0
  | .num _ => 1
  | .pybool _ => 2
  | .nil => 3
  | .undefined => 4
  | .pair _ _ _ => 5
  | .builtinP _ _ _ => 6
  | .lambdaP _ _ _ _ => 7
  | .muP _ _ _ => 8
  | .macroP _ _ _ _ => 9
  | .promiseV _ => 10
  | .thunkV _ _ => 11

mutual

/-- Modelled from the spec: `repl_str` is defined in the external reader
(`lisp_reader.py`, not under `src/`); §6 fixes the textual representation
(booleans `#t`/`#f`, nil `()`, pairs in list form, procedures `#[name]`,
integers without decimals, symbols bare, strings with quotes).  The
promise/thunk forms depend on heap state not available to a pure printer and
are abbreviated; no claim depends on them. -/
def replStr : Value → String
  | .pybool true => "#t"
  | .pybool false => "#f"
  | .nil => "()"
  | .undefined => "undefined"
  | .num n => toString n
  | .pystr _ s => s
  | .pair _ a d => "(" ++ replStr a ++ replTail d
  | .builtinP _ name _ => "#[" ++ name ++ "]"
  | .lambdaP _ formals body _ => "(lambda " ++ replStr formals ++ replTail body
  | .muP _ formals body => "(mu " ++ replStr formals ++ replTail body
  | .macroP _ formals body _ => "(lambda " ++ replStr formals ++ replTail body
  | .promiseV _ => "#[promise]"
  | .thunkV _ _ => "#[thunk]"

/-- Tail of the printed form of a pair chain: elements separated by spaces,
a dotted improper tail, closing parenthesis (modelled from the spec, see
`replStr`). -/
def replTail : Value → String
  | .nil => ")"
  | .pair _ a d => " " ++ replStr a ++ replTail d
  | v => " . " ++ replStr v ++ ")"

end

/-- Python `str()` as used by `'...{0}'.format(x)` in error messages: it
differs from `repl_str` on booleans (`True`/`False`) and `None`. -/
def pyStr : Value → String
  | .pybool true => "True"
  | .pybool false => "False"
  | .undefined => "None"
  | v => replStr v

/-! ## `equal?`, `eq?` (lisp_builtins.py:58-74) -/

/-- `lisp_equalp` (lisp_builtins.py:58): recurse on two pairs, numeric
equality on two numbers, otherwise Python type equality plus `==`. -/
def lisp_equalp (x y : Value) : Bool :=
  match x, y with
  | .pair _ a b, .pair _ c d => lisp_equalp a c && lisp_equalp b d
  | x, y =>
      if lisp_numberp x && lisp_numberp y then pyEq x y
      else pyTypeTag x = pyTypeTag y && pyEq x y

/-- `lisp_eqp` (lisp_builtins.py:67): `==` on two numbers, `==` on two
symbols, Python `is` otherwise. -/
def lisp_eqp (x y : Value) : Bool :=
  if lisp_numberp x && lisp_numberp y then pyEq x y
  else if lisp_symbolp x && lisp_symbolp y then pyEq x y
  else pyIs x y

/-! ## `remainder` (lisp_builtins.py:255-264) -/

/-- The `while result < 0 and val0 > 0 or result > 0 and val0 < 0` adjustment
loop of `lisp_remainder`, with fuel (the loop body subtracts `val1` from
`result`; for integer arguments it runs at most once, which the `remainder`
theorem proves by showing the fuel is never exhausted). -/
def remainderLoop : Nat → Int → Int → Int → Option Int
  | 0, _, _, _ => none
  | fuel + 1, val0, val1, result =>
      if (result < 0 ∧ val0 > 0) ∨ (result > 0 ∧ val0 < 0) then
        remainderLoop fuel val0 val1 (result - val1)
      else some result

/-- `lisp_remainder` (lisp_builtins.py:255): Python `%` (floored modulus,
i.e. `Int.fmod`) followed by the sign-adjustment loop; division by zero
raises a `lispError` carrying the host message. -/
def lisp_remainder (val0 val1 : Int) : Except Err Int :=
  if val1 = 0 then
    .error (.lispErr (some "integer division or modulo by zero"))
  else
    match remainderLoop 3 val0 val1 (Int.fmod val0 val1) with
    | some r => .ok r
    | none => .error (.hostErr "remainder loop fuel exhausted")

/-! ## Python `len()` and shape checks -/

/-- Length of the chain continuing a `Pair`.
Modelled from the spec: `Pair.__len__` lives in the external reader; the
spec's "proper list" definition (§Glossary) fixes it as the chain length,
raising a host `TypeError` on an improper tail. -/
def pairLen : Value → Except Err Nat
  | .nil => .ok 0
  | .pair _ _ d =>
      match pairLen d with
      | .ok n => .ok (n + 1)
      | .error e => .error e
  | _ => .error (.hostErr "TypeError: length attempted on improper list")

/-- Python `len(x)` on interpreter values: 0 for nil (`nil.__len__`), chain
length for pairs (`Pair.__len__`), character count for `str`, and a host
`TypeError` for everything else. -/
def lispLen : Value → Except Err Nat
  | .nil => .ok 0
  | .pystr _ s => .ok s.length
  | .pair _ _ d =>
      match pairLen d with
      | .ok n => .ok (n + 1)
      | .error e => .error e
  | _ => .error (.hostErr "TypeError: object has no len")

/-- `check_form` (lisp_interpreter.py:398): a proper list whose length lies
in `[mn, mx]` (`mx = none` is the `float('inf')` default). -/
def check_form (expr : Value) (mn : Nat) (mx : Option Nat) : Except Err Unit :=
  if lisp_listp expr = false then
    .error (.lispErr (some ("badly formed expression: " ++ replStr expr)))
  else
    match lispLen expr with
    | .error e => .error e
    | .ok length =>
      if length < mn then .error (.lispErr (some "too few operands in form"))
      else
        match mx with
        | some m =>
            if length > m then .error (.lispErr (some "too many operands in form"))
            else .ok ()
        | none => .ok ()

/-- The text of a Python `str` value (callers guard with `lisp_symbolp` or
`lisp_stringp`). -/
def symText : Value → String
  | .pystr _ s => s
  | _ => ""

/-- The `while isinstance(formals, Pair)` walk of `check_formals` with its
`symbols` set (lisp_interpreter.py:420-430): each car along the pair spine
must be a fresh symbol; the (non-`Pair`) tail is never examined. -/
def checkFormalsGo : Value → List String → Except Err Unit
  | .pair _ x rest, symbols =>
      if lisp_symbolp x = false then
        .error (.lispErr (some ("non-symbol: " ++ pyStr x)))
      else if symbols.contains (symText x) then
        .error (.lispErr (some ("duplicate symbol: " ++ symText x)))
      else checkFormalsGo rest (symText x :: symbols)
  | _, _ => .ok ()

/-- `check_formals` (lisp_interpreter.py:413). -/
def check_formals (formals : Value) : Except Err Unit :=
  checkFormalsGo formals []

/-- `lisp_procedurep` (lisp_interpreter.py:127): instance of `Procedure`. -/
def lisp_procedurep : Value → Bool
  | .builtinP _ _ _ => true
  | .lambdaP _ _ _ _ => true
  | .muP _ _ _ => true
  | .macroP _ _ _ _ => true
  | _ => false

/-- `type(x).__name__.lower()`; the reader's class names (`Pair`, `nil`) are
modelled from the spec's value table (§3). -/
def typeNameLower : Value → String
  | .pystr _ _ => "str"
  | .num _ => "int"
  | .pybool _ => "bool"
  | .nil => "nil"
  | .undefined => "nonetype"
  | .pair _ _ _ => "pair"
  | .builtinP _ _ _ => "builtinprocedure"
  | .lambdaP _ _ _ _ => "lambdaprocedure"
  | .muP _ _ _ => "muprocedure"
  | .macroP _ _ _ _ => "macroprocedure"
  | .promiseV _ => "promise"
  | .thunkV _ _ => "thunk"

/-- `check_procedure` (lisp_interpreter.py:433). -/
def check_procedure (procedure : Value) : Except Err Unit :=
  if lisp_procedurep procedure = false then
    .error (.lispErr (some
      (typeNameLower procedure ++ " is not callable: " ++ replStr procedure)))
  else .ok ()

/-! ## Frame-chain operations (`Frame`, lisp_interpreter.py:69-121) -/

/-- The frame object a frame index refers to. -/
def frameAt (σ : State) (i : Nat) : Option FrameD :=
  σ.frames[i]?

/-- Replace the frame stored at index `i`. -/
def setFrame (σ : State) (i : Nat) (fr : FrameD) : State :=
  { σ with frames := σ.frames.set i fr }

/-- Allocate a new frame; its index is the current heap size (frames are only
appended, so existing indices never move). -/
def addFrame (σ : State) (fr : FrameD) : State × Nat :=
  ({ σ with frames := σ.frames ++ [fr] }, σ.frames.length)

/-- Allocate a new `Promise` object. -/
def addPromise (σ : State) (p : PromiseD) : State × Nat :=
  ({ σ with promises := σ.promises ++ [p] }, σ.promises.length)

/-- `Frame.define` (lisp_interpreter.py:83): `self.bindings[symbol] = value`.
Every call site passes a validated frame index and a symbol key, so the
fall-through (a Python `KeyError`/unhashable-key situation) leaves the heap
unchanged. -/
def frame_define (σ : State) (env : Nat) (symbol value : Value) : State :=
  match frameAt σ env, symbol with
  | some fr, .pystr _ s => setFrame σ env { fr with bindings := defineBind fr.bindings s value }
  | _, _ => σ

/-- `Frame.lookup` (lisp_interpreter.py:88): walk the parent chain; fail with
"unknown identifier" at the global frame.  Fueled because the parent chain
length is not structurally evident (allocation keeps parents at smaller
indices, so the chain is in fact finite). -/
def frame_lookup : Nat → State → Nat → String → ROut Value
  | 0, _, _, _ => .timeout
  | fuel + 1, σ, env, s =>
    match frameAt σ env with
    | none => .err (.hostErr "invalid frame")
    | some fr =>
      match lookupBind fr.bindings s with
      | some v => .ok v
      | none =>
        match fr.parent with
        | some p => frame_lookup fuel σ p s
        | none => .err (.lispErr (some ("unknown identifier: " ++ s)))

/-- The binding loop of `Frame.make_child_frame` (lisp_interpreter.py:117):
`n` iterations of `define(formals.first, vals.first)` then advancing both
lists.  A non-pair encountered while iterating raises the host
`AttributeError` Python would (`.first` on a non-pair); a non-symbol car
would be an unhashable/never-found dict key and is unreachable because every
caller has validated the formals. -/
def childBindings : Nat → Value → Value → List (String × Value) → Except Err (List (String × Value))
  | 0, _, _, acc => .ok acc
  | n + 1, formals, vals, acc =>
    match formals, vals with
    | .pair _ (.pystr _ s) fr, .pair _ v vr => childBindings n fr vr (defineBind acc s v)
    | .pair _ _ _, .pair _ _ _ => .error (.hostErr "TypeError: unhashable formal")
    | _, _ => .error (.hostErr "AttributeError: first")

/-- `Frame.make_child_frame` (lisp_interpreter.py:100): compare `len`s, then
bind formals to values in a fresh child frame.  (Python allocates the empty
frame before the loop and mutates it; no evaluation happens in between, so
allocating the finished frame is observationally identical.) -/
def make_child_frame (σ : State) (self : Nat) (formals vals : Value) : State × ROut Nat :=
  match lispLen formals with
  | .error e => (σ, .err e)
  | .ok nf =>
    match lispLen vals with
    | .error e => (σ, .err e)
    | .ok nv =>
      if nf ≠ nv then (σ, .err (.lispErr (some "Too many or too few vals are given.")))
      else
        match childBindings nf formals vals [] with
        | .error e => (σ, .err e)
        | .ok bs =>
          let alloc := addFrame σ ⟨bs, some self⟩
          (alloc.1, .ok alloc.2)

/-! ## Special forms without recursive evaluation -/

/-- Python `x == "..."` against a string literal (content comparison; the id
on the literal is irrelevant to `pyEq`). -/
def pyEqStr (v : Value) (s : String) : Bool :=
  pyEq v (.pystr 0 s)

/-- The keys of the `SPECIAL_FORMS` dict (lisp_interpreter.py:382-395 plus
the later `mu`, `cons-stream`, `delay` insertions). -/
def SPECIAL_FORMS : List String :=
  ["and", "begin", "cond", "define", "if", "lambda", "let", "or", "quote",
   "define-macro", "quasiquote", "unquote", "mu", "cons-stream", "delay"]

/-- `do_quote_form` (lisp_interpreter.py:231). -/
def do_quote_form (expressions : Value) (σ : State) : State × ROut Value :=
  match check_form expressions 1 (some 1) with
  | .error e => (σ, .err e)
  | .ok _ =>
    match expressions with
    | .pair _ a _ => (σ, .ok a)
    | _ => (σ, .err (.hostErr "AttributeError: first"))

/-- `do_lambda_form` (lisp_interpreter.py:242). -/
def do_lambda_form (expressions : Value) (env : Nat) (σ : State) : State × ROut Value :=
  match check_form expressions 2 none with
  | .error e => (σ, .err e)
  | .ok _ =>
    match expressions with
    | .pair _ formals body =>
      match check_formals formals with
      | .error e => (σ, .err e)
      | .ok _ => (σ, .ok (.lambdaP 0 formals body env))
    | _ => (σ, .err (.hostErr "AttributeError: first"))

/-- `do_mu_form` (lisp_interpreter.py:468). -/
def do_mu_form (expressions : Value) (σ : State) : State × ROut Value :=
  match check_form expressions 2 none with
  | .error e => (σ, .err e)
  | .ok _ =>
    match expressions with
    | .pair _ formals body =>
      match check_formals formals with
      | .error e => (σ, .err e)
      | .ok _ => (σ, .ok (.muP 0 formals body))
    | _ => (σ, .err (.hostErr "AttributeError: first"))

/-- `do_define_macro` (lisp_interpreter.py:338), renamed with a `_form`
suffix.  The `print('DEBUG:', ...)` line is an output side effect with no
bearing on values or the heap and is not modelled.  Note the final
`raise lispError` is bare: it carries no message. -/
def do_define_macro_form (expressions : Value) (env : Nat) (σ : State) : State × ROut Value :=
  match check_form expressions 2 none with
  | .error e => (σ, .err e)
  | .ok _ =>
    match expressions with
    | .pair _ target drest =>
      match target with
      | .pair _ thead trest =>
        if lisp_symbolp thead then
          match check_formals trest with
          | .error e => (σ, .err e)
          | .ok _ =>
            (frame_define σ env thead (.macroP 0 trest drest env), .ok thead)
        else (σ, .err (.lispErr none))
      | _ => (σ, .err (.lispErr none))
    | _ => (σ, .err (.hostErr "AttributeError: first"))

/-- `do_unquote` (lisp_interpreter.py:378). -/
def do_unquote (σ : State) : State × ROut Value :=
  (σ, .err (.lispErr (some "unquote outside of quasiquote")))

/-- `do_delay_form` (lisp_interpreter.py:498): construct a `Promise` over the
expression and the current environment. -/
def do_delay_form (expressions : Value) (env : Nat) (σ : State) : State × ROut Value :=
  match check_form expressions 1 (some 1) with
  | .error e => (σ, .err e)
  | .ok _ =>
    match expressions with
    | .pair _ e _ =>
      let alloc := addPromise σ ⟨some e, some env, none⟩
      (alloc.1, .ok (.promiseV alloc.2))
    | _ => (σ, .err (.hostErr "AttributeError: first"))

/-! ## The eval/apply core

`lisp_eval` is rebound at module load (lisp_interpreter.py:546):
`lisp_eval = optimize_tail_calls(lisp_eval)`.  Hence `optimized_eval` is the
function every internal `lisp_eval(...)` call resolves to, while
`original_lisp_eval` (the wrapper's captured parameter) is the primitive
evaluator of lines 10-39.  Host built-in bodies are external collaborators
(spec §1, §6); applying one inside the evaluator is represented by a
distinguished error (no claim exercises a built-in call inside the
evaluator); the calling protocol of `BuiltinProcedure.apply` itself is
embedded separately below as `builtin_apply`. -/

set_option maxHeartbeats 1000000 in
mutual

/-- `optimized_eval` (lisp_interpreter.py:529): in tail position a non-atom
is wrapped into a `Thunk` immediately (no fuel consumed — no recursion
happens); otherwise the trampoline loop drives `original_lisp_eval`. -/
def optimized_eval (fuel : Nat) (expr : Value) (env : Nat) (tail : Bool) (σ : State) :
    State × ROut Value :=
  if tail && !lisp_symbolp expr && !self_evaluating expr then
    (σ, .ok (.thunkV expr env))
  else
    match fuel with
    | 0 => (σ, .timeout)
    | f + 1 => trampoline f expr env σ

termination_by structural fuel

/-- The `result = Thunk(expr, env); while isinstance(result, Thunk): ...`
loop of `optimized_eval` (lisp_interpreter.py:536-540): repeatedly apply the
primitive evaluator until the result is not a `Thunk`. -/
def trampoline (fuel : Nat) (expr : Value) (env : Nat) (σ : State) :
    State × ROut Value :=
  match fuel with
  | 0 => (σ, .timeout)
  | f + 1 =>
    match original_lisp_eval f expr env σ with
    | (σ1, .ok (.thunkV e2 n2)) => trampoline f e2 n2 σ1
    | other => other

termination_by structural fuel

/-- `lisp_eval` as written at lisp_interpreter.py:10-39 (the primitive
evaluator captured by `optimize_tail_calls`): symbols look up, self-evaluating
forms return themselves, combinations must be proper lists, special forms
dispatch on the head symbol, macros expand and re-evaluate, and ordinary
calls evaluate head and operands and apply. -/
def original_lisp_eval (fuel : Nat) (expr : Value) (env : Nat) (σ : State) :
    State × ROut Value :=
  match fuel with
  | 0 => (σ, .timeout)
  | f + 1 =>
    if lisp_symbolp expr then (σ, frame_lookup f σ env (symText expr))
    else if self_evaluating expr then (σ, .ok expr)
    else if lisp_listp expr = false then
      (σ, .err (.lispErr (some ("malformed list: " ++ replStr expr))))
    else
      match expr with
      | .pair _ first rest =>
        if lisp_symbolp first && SPECIAL_FORMS.contains (symText first) then
          -- the SPECIAL_FORMS dict dispatch
          if symText first = "and" then do_and_form f rest env σ
          else if symText first = "begin" then do_begin_form f rest env σ
          else if symText first = "cond" then do_cond_form f rest env σ
          else if symText first = "define" then do_define_form f rest env σ
          else if symText first = "if" then do_if_form f rest env σ
          else if symText first = "lambda" then do_lambda_form rest env σ
          else if symText first = "let" then do_let_form f rest env σ
          else if symText first = "or" then do_or_form f rest env σ
          else if symText first = "quote" then do_quote_form rest σ
          else if symText first = "define-macro" then do_define_macro_form rest env σ
          else if symText first = "quasiquote" then do_quasiquote_form f rest env σ
          else if symText first = "unquote" then do_unquote σ
          else if symText first = "mu" then do_mu_form rest σ
          else if symText first = "cons-stream" then do_cons_stream_form f rest env σ
          else do_delay_form rest env σ
        else
          match optimized_eval f first env false σ with
          | (σ1, .ok procedure) =>
            match check_procedure procedure with
            | .error e => (σ1, .err e)
            | .ok _ =>
              match procedure with
              | .macroP _ _ _ _ =>
                -- MacroProcedure.apply_macro = complete_apply, then
                -- lisp_eval(result, env) (the rebound, optimized eval)
                match complete_apply f procedure rest env σ1 with
                | (σ2, .ok expanded) => optimized_eval f expanded env false σ2
                | other => other
              | _ =>
                match eval_operands f rest env σ1 with
                | (σ2, .ok args) => lisp_apply f procedure args env σ2
                | (σ2, .err e) => (σ2, .err e)
                | (σ2, .timeout) => (σ2, .timeout)
          | other => other
      | _ => (σ, .err (.hostErr "AttributeError: first"))

termination_by structural fuel

/-- `rest.map(helper)` in `lisp_eval` (lisp_interpreter.py:37-39): evaluate
each operand left to right, building the argument list.
Modelled from the spec: `Pair.map` lives in the external reader; §4.4 fixes
"map eval over rest to produce an argument list" with left-to-right order
(§5), raising on an ill-formed list. -/
def eval_operands (fuel : Nat) (rest : Value) (env : Nat) (σ : State) :
    State × ROut Value :=
  match fuel with
  | 0 => (σ, .timeout)
  | f + 1 =>
    match rest with
    | .nil => (σ, .ok .nil)
    | .pair _ a d =>
      match optimized_eval f a env false σ with
      | (σ1, .ok va) =>
        match eval_operands f d env σ1 with
        | (σ2, .ok vd) => (σ2, .ok (.pair 0 va vd))
        | other => other
      | other => other
    | _ => (σ, .err (.hostErr "TypeError: ill-formed list"))

termination_by structural fuel

/-- `lisp_apply` (lisp_interpreter.py:46): built-ins invoke the host
function (external, see section header); user procedures build a call frame
(`LambdaProcedure.make_call_frame` closes over the captured environment,
`MuProcedure.make_call_frame` over the caller's; `MacroProcedure` inherits
the lexical one) and evaluate the body as a sequence. -/
def lisp_apply (fuel : Nat) (procedure args : Value) (env : Nat) (σ : State) :
    State × ROut Value :=
  match fuel with
  | 0 => (σ, .timeout)
  | f + 1 =>
    match check_procedure procedure with
    | .error e => (σ, .err e)
    | .ok _ =>
      match procedure with
      | .builtinP _ name _ =>
          (σ, .err (.lispErr (some ("builtin " ++ name ++ " not modelled"))))
      | .lambdaP _ formals body penv =>
        match make_child_frame σ penv formals args with
        | (σ1, .ok newEnv) => eval_all f body newEnv σ1
        | (σ1, .err e) => (σ1, .err e)
        | (σ1, .timeout) => (σ1, .timeout)
      | .macroP _ formals body penv =>
        match make_child_frame σ penv formals args with
        | (σ1, .ok newEnv) => eval_all f body newEnv σ1
        | (σ1, .err e) => (σ1, .err e)
        | (σ1, .timeout) => (σ1, .timeout)
      | .muP _ formals body =>
        match make_child_frame σ env formals args with
        | (σ1, .ok newEnv) => eval_all f body newEnv σ1
        | (σ1, .err e) => (σ1, .err e)
        | (σ1, .timeout) => (σ1, .timeout)
      | _ => (σ, .err (.hostErr "unreachable: check_procedure"))

termination_by structural fuel

/-- `complete_apply` (lisp_interpreter.py:519): apply, then force a resulting
`Thunk` with the (rebound) `lisp_eval`. -/
def complete_apply (fuel : Nat) (procedure args : Value) (env : Nat) (σ : State) :
    State × ROut Value :=
  match fuel with
  | 0 => (σ, .timeout)
  | f + 1 =>
    match lisp_apply f procedure args env σ with
    | (σ1, .ok (.thunkV e2 n2)) => optimized_eval f e2 n2 false σ1
    | other => other

termination_by structural fuel

/-- `eval_all` (lisp_interpreter.py:56): empty sequence yields `None`; the
final expression is evaluated with `tail=True`; earlier ones for effect. -/
def eval_all (fuel : Nat) (expressions : Value) (env : Nat) (σ : State) :
    State × ROut Value :=
  match fuel with
  | 0 => (σ, .timeout)
  | f + 1 =>
    if expressions = .nil then (σ, .ok .undefined)
    else
      match lispLen expressions with
      | .error e => (σ, .err e)
      | .ok n =>
        match expressions with
        | .pair _ a d =>
          if n = 1 then optimized_eval f a env true σ
          else
            match optimized_eval f a env false σ with
            | (σ1, .ok _) => eval_all f d env σ1
            | other => other
        | _ => (σ, .err (.hostErr "AttributeError: first"))

termination_by structural fuel

/-- `do_define_form` (lisp_interpreter.py:212): bind a symbol to the value of
its expression, or desugar `(define (name . formals) body...)` through
`do_lambda_form`; evaluation happens before `Frame.define`. -/
def do_define_form (fuel : Nat) (expressions : Value) (env : Nat) (σ : State) :
    State × ROut Value :=
  match fuel with
  | 0 => (σ, .timeout)
  | f + 1 =>
    match check_form expressions 2 none with
    | .error e => (σ, .err e)
    | .ok _ =>
      match expressions with
      | .pair _ target drest =>
        if lisp_symbolp target then
          match check_form expressions 2 (some 2) with
          | .error e => (σ, .err e)
          | .ok _ =>
            match drest with
            | .pair _ e _ =>
              match optimized_eval f e env false σ with
              | (σ1, .ok v) => (frame_define σ1 env target v, .ok target)
              | other => other
            | _ => (σ, .err (.hostErr "AttributeError: first"))
        else
          match target with
          | .pair _ thead trest =>
            if lisp_symbolp thead then
              match do_lambda_form (.pair 0 trest drest) env σ with
              | (σ1, .ok lam) => (frame_define σ1 env thead lam, .ok thead)
              | other => other
            else (σ, .err (.lispErr (some ("non-symbol: " ++ pyStr thead))))
          | _ => (σ, .err (.lispErr (some ("non-symbol: " ++ pyStr target))))
      | _ => (σ, .err (.hostErr "AttributeError: first"))

termination_by structural fuel

/-- `do_begin_form` (lisp_interpreter.py:237). -/
def do_begin_form (fuel : Nat) (expressions : Value) (env : Nat) (σ : State) :
    State × ROut Value :=
  match fuel with
  | 0 => (σ, .timeout)
  | f + 1 =>
    match check_form expressions 1 none with
    | .error e => (σ, .err e)
    | .ok _ => eval_all f expressions env σ

termination_by structural fuel

/-- `do_if_form` (lisp_interpreter.py:250): both branches are evaluated with
`tail=True`; a missing alternative yields Python `None`. -/
def do_if_form (fuel : Nat) (expressions : Value) (env : Nat) (σ : State) :
    State × ROut Value :=
  match fuel with
  | 0 => (σ, .timeout)
  | f + 1 =>
    match check_form expressions 2 (some 3) with
    | .error e => (σ, .err e)
    | .ok _ =>
      match expressions with
      | .pair _ c (.pair _ t rest) =>
        match optimized_eval f c env false σ with
        | (σ1, .ok v) =>
          if lisp_truep v then optimized_eval f t env true σ1
          else
            match lispLen expressions with
            | .ok 3 =>
              match rest with
              | .pair _ e _ => optimized_eval f e env true σ1
              | _ => (σ1, .err (.hostErr "AttributeError: first"))
            | .ok _ => (σ1, .ok .undefined)
            | .error er => (σ1, .err er)
        | other => other
      | _ => (σ, .err (.hostErr "AttributeError: first"))

termination_by structural fuel

/-- `do_and_form` (lisp_interpreter.py:258): empty yields `True`; the last
operand is evaluated in tail position; a false value is returned at once. -/
def do_and_form (fuel : Nat) (expressions : Value) (env : Nat) (σ : State) :
    State × ROut Value :=
  match fuel with
  | 0 => (σ, .timeout)
  | f + 1 =>
    match lispLen expressions with
    | .error e => (σ, .err e)
    | .ok n =>
      if n = 0 then (σ, .ok (.pybool true))
      else
        match expressions with
        | .pair _ a d =>
          match optimized_eval f a env (decide (n = 1)) σ with
          | (σ1, .ok evaled) =>
            if lisp_falsep evaled then (σ1, .ok evaled)
            else if n = 1 then (σ1, .ok evaled)
            else do_and_form f d env σ1
          | other => other
        | _ => (σ, .err (.hostErr "AttributeError: first"))

termination_by structural fuel

/-- `do_or_form` (lisp_interpreter.py:276): empty yields `False`; the last
operand is evaluated in tail position; a truthy value is returned at once. -/
def do_or_form (fuel : Nat) (expressions : Value) (env : Nat) (σ : State) :
    State × ROut Value :=
  match fuel with
  | 0 => (σ, .timeout)
  | f + 1 =>
    match lispLen expressions with
    | .error e => (σ, .err e)
    | .ok n =>
      if n = 0 then (σ, .ok (.pybool false))
      else
        match expressions with
        | .pair _ a d =>
          match optimized_eval f a env (decide (n = 1)) σ with
          | (σ1, .ok evaled) =>
            if lisp_truep evaled then (σ1, .ok evaled)
            else if n = 1 then (σ1, .ok evaled)
            else do_or_form f d env σ1
          | other => other
        | _ => (σ, .err (.hostErr "AttributeError: first"))

termination_by structural fuel

/-- `do_cond_form` (lisp_interpreter.py:294): the `while` loop over clauses.
The misplaced-`else` check runs only when the loop reaches the `else`
clause; a clause with an empty body returns its test value. -/
def do_cond_form (fuel : Nat) (expressions : Value) (env : Nat) (σ : State) :
    State × ROut Value :=
  match fuel with
  | 0 => (σ, .timeout)
  | f + 1 =>
    if expressions = .nil then (σ, .ok .undefined)
    else
      match expressions with
      | .pair _ clause rest =>
        match check_form clause 1 none with
        | .error e => (σ, .err e)
        | .ok _ =>
          match clause with
          | .pair _ chead cbody =>
            if pyEqStr chead "else" then
              if rest ≠ .nil then (σ, .err (.lispErr (some "else must be last")))
              else
                -- test = True, which is truthy
                match lispLen clause with
                | .ok 1 => (σ, .ok (.pybool true))
                | .ok _ => eval_all f cbody env σ
                | .error er => (σ, .err er)
            else
              match optimized_eval f chead env false σ with
              | (σ1, .ok test) =>
                if lisp_truep test then
                  match lispLen clause with
                  | .ok 1 => (σ1, .ok test)
                  | .ok _ => eval_all f cbody env σ1
                  | .error er => (σ1, .err er)
                else do_cond_form f rest env σ1
              | other => other
          | _ => (σ, .err (.hostErr "AttributeError: first"))
      | _ => (σ, .err (.hostErr "AttributeError: first"))

termination_by structural fuel

/-- `do_let_form` (lisp_interpreter.py:314). -/
def do_let_form (fuel : Nat) (expressions : Value) (env : Nat) (σ : State) :
    State × ROut Value :=
  match fuel with
  | 0 => (σ, .timeout)
  | f + 1 =>
    match check_form expressions 2 none with
    | .error e => (σ, .err e)
    | .ok _ =>
      match expressions with
      | .pair _ bindings body =>
        match make_let_frame f bindings env σ with
        | (σ1, .ok letEnv) => eval_all f body letEnv σ1
        | (σ1, .err e) => (σ1, .err e)
        | (σ1, .timeout) => (σ1, .timeout)
      | _ => (σ, .err (.hostErr "AttributeError: first"))

termination_by structural fuel

/-- `make_let_frame` (lisp_interpreter.py:320): reject a non-list bindings
form, then run the `for i in range(len(bindings))` loop. -/
def make_let_frame (fuel : Nat) (bindings : Value) (env : Nat) (σ : State) :
    State × ROut Nat :=
  match fuel with
  | 0 => (σ, .timeout)
  | f + 1 =>
    if lisp_listp bindings = false then
      (σ, .err (.lispErr (some "bad bindings list in let form")))
    else
      match lispLen bindings with
      | .error e => (σ, .err e)
      | .ok n => let_frame_loop f n bindings env σ .nil .nil

termination_by structural fuel

/-- The loop body of `make_let_frame` (lisp_interpreter.py:328-336): per
iteration check the binding's shape, prepend the name to `formal`, evaluate
the init in the **outer** `env` and prepend the value to `val`; after the
loop validate the collected formals and build the child frame. -/
def let_frame_loop (fuel : Nat) (n : Nat) (bindings : Value) (env : Nat)
    (σ : State) (formal val : Value) : State × ROut Nat :=
  match n with
  | 0 =>
    match check_formals formal with
    | .error e => (σ, .err e)
    | .ok _ => make_child_frame σ env formal val
  | n + 1 =>
    match fuel with
    | 0 => (σ, .timeout)
    | f + 1 =>
      match bindings with
      | .pair _ b brest =>
        match check_form b 2 (some 2) with
        | .error e => (σ, .err e)
        | .ok _ =>
          match b with
          | .pair _ name (.pair _ e _) =>
            match optimized_eval f e env false σ with
            | (σ1, .ok w) =>
                let_frame_loop f n brest env σ1 (.pair 0 name formal) (.pair 0 w val)
            | (σ1, .err er) => (σ1, .err er)
            | (σ1, .timeout) => (σ1, .timeout)
          | _ => (σ, .err (.hostErr "AttributeError: first"))
      | _ => (σ, .err (.hostErr "AttributeError: first"))

termination_by structural fuel

/-- `do_cons_stream_form` (lisp_interpreter.py:503): evaluate the car
eagerly, delay the cdr. -/
def do_cons_stream_form (fuel : Nat) (expressions : Value) (env : Nat) (σ : State) :
    State × ROut Value :=
  match fuel with
  | 0 => (σ, .timeout)
  | f + 1 =>
    match check_form expressions 2 (some 2) with
    | .error e => (σ, .err e)
    | .ok _ =>
      match expressions with
      | .pair _ a rest =>
        match optimized_eval f a env false σ with
        | (σ1, .ok va) =>
          match do_delay_form rest env σ1 with
          | (σ2, .ok p) => (σ2, .ok (.pair 0 va p))
          | other => other
        | other => other
      | _ => (σ, .err (.hostErr "AttributeError: first"))

termination_by structural fuel

/-- `do_quasiquote_form` (lisp_interpreter.py:355). -/
def do_quasiquote_form (fuel : Nat) (expressions : Value) (env : Nat) (σ : State) :
    State × ROut Value :=
  match fuel with
  | 0 => (σ, .timeout)
  | f + 1 =>
    match check_form expressions 1 (some 1) with
    | .error e => (σ, .err e)
    | .ok _ =>
      match expressions with
      | .pair _ e _ => quasiquote_item f e env 1 σ
      | _ => (σ, .err (.hostErr "AttributeError: first"))

termination_by structural fuel

/-- `quasiquote_item` (lisp_interpreter.py:358): non-pairs are returned as
is; `unquote` at matching depth evaluates; otherwise the tree is rebuilt
with the adjusted nesting level.  (`level` starts at 1 and the recursion
returns before it can reach 0 again, so `Nat` subtraction is exact.) -/
def quasiquote_item (fuel : Nat) (val : Value) (env : Nat) (level : Nat) (σ : State) :
    State × ROut Value :=
  match fuel with
  | 0 => (σ, .timeout)
  | f + 1 =>
    if lisp_pairp val = false then (σ, .ok val)
    else
      match val with
      | .pair _ vf vs =>
        let level1 :=
          if pyEqStr vf "unquote" then level - 1
          else if pyEqStr vf "quasiquote" then level + 1
          else level
        if pyEqStr vf "unquote" && decide (level1 = 0) then
          match check_form vs 1 (some 1) with
          | .error e => (σ, .err e)
          | .ok _ =>
            match vs with
            | .pair _ e _ => optimized_eval f e env false σ
            | _ => (σ, .err (.hostErr "AttributeError: first"))
        else
          match quasiquote_item f vf env level1 σ with
          | (σ1, .ok a) =>
            match quasiquote_item f vs env level1 σ1 with
            | (σ2, .ok b) => (σ2, .ok (.pair 0 a b))
            | other => other
          | other => other
      | _ => (σ, .err (.hostErr "AttributeError: first"))


termination_by structural fuel
end

/-! ## Promises (`Promise.evaluate`, lisp_interpreter.py:485) and `force` -/

/-- The promise object a promise id refers to. -/
def promiseAt (σ : State) (pid : Nat) : Option PromiseD :=
  σ.promises[pid]?

/-- Replace the promise stored at index `pid`. -/
def setPromise (σ : State) (pid : Nat) (p : PromiseD) : State :=
  { σ with promises := σ.promises.set pid p }

/-- `Promise.evaluate` (lisp_interpreter.py:485-492): if the expression is
still present, evaluate it in the captured environment, require a pair or
nil, store the value and clear `self.expression` (note: `self.env` is left
untouched by the source); then return `self.value` (a Python
`AttributeError` if it was never set, which the constructor makes
unreachable). -/
def promise_evaluate (fuel : Nat) (pid : Nat) (σ : State) : State × ROut Value :=
  match promiseAt σ pid with
  | none => (σ, .err (.hostErr "invalid promise"))
  | some p =>
    match p.expression with
    | some e =>
      match p.envRef with
      | none => (σ, .err (.hostErr "AttributeError: env"))
      | some en =>
        match optimized_eval fuel e en false σ with
        | (σ1, .ok v) =>
          if v = .nil || lisp_pairp v then
            (setPromise σ1 pid { expression := none, envRef := p.envRef, value := some v }, .ok v)
          else
            (σ1, .err (.lispErr (some
              ("result of forcing a promise should be a pair or nil, but was " ++ pyStr v))))
        | other => other
    | none =>
      match p.value with
      | some v => (σ, .ok v)
      | none => (σ, .err (.hostErr "AttributeError: value"))

/-- `check_type` (lisp_builtins.py:34). -/
def check_type (val : Value) (pred : Value → Bool) (k : Nat) (name : String) :
    Except Err Unit :=
  if pred val = false then
    .error (.lispErr (some
      ("argument " ++ toString k ++ " of " ++ name ++ " has wrong type (" ++
        typeNameLower val ++ ")")))
  else .ok ()

/-- `lisp_force` (lisp_builtins.py:89): require a promise, then
`x.evaluate()`. -/
def lisp_force (fuel : Nat) (x : Value) (σ : State) : State × ROut Value :=
  match check_type x lisp_promisep 0 "promise" with
  | .error e => (σ, .err e)
  | .ok _ =>
    match x with
    | .promiseV pid => promise_evaluate fuel pid σ
    | _ => (σ, .err (.hostErr "unreachable: check_type"))

/-! ## `BuiltinProcedure.apply` (lisp_interpreter.py:141-163)

The host function `self.fn` is an arbitrary external callable; it is
abstracted as a Lean function from the materialized argument list (plus the
caller's environment when `use_env` was set at registration) to either a
value or a raised Python exception. -/

/-- The `while args is not nil` conversion of a lisp list to a Python list
(lisp_interpreter.py:153-156); callers have checked `lisp_listp`, so the
non-list fall-through is unreachable. -/
def toPyList : Value → List Value
  | .pair _ a d => a :: toPyList d
  | _ => []

/-- `BuiltinProcedure.apply` (lisp_interpreter.py:141): reject non-list
arguments with a message, convert to a Python list, append the environment
when requested, then invoke the host function under `try: ... except:
raise lispError` — ANY failure (host errors and `lispError`s with messages
alike) is replaced by a bare `lispError` carrying no message. -/
def builtin_apply (fn : List Value → Option Nat → Except Err Value)
    (useEnv : Bool) (args : Value) (env : Nat) : Except Err Value :=
  if lisp_listp args = false then
    .error (.lispErr (some ("arguments are not in a list: " ++ pyStr args)))
  else
    match fn (toPyList args) (if useEnv then some env else none) with
    | .ok v => .ok v
    | .error _ => .error (.lispErr none)

/-! ## Theorems -/

/-- Unfolding step of `remainderLoop` at a successor fuel. -/
theorem remainderLoop_succ (f : Nat) (a b r : Int) :
    remainderLoop (f + 1) a b r =
      if (r < 0 ∧ a > 0) ∨ (r > 0 ∧ a < 0) then remainderLoop f a b (r - b)
      else some r := rfl

/-- For a negative divisor, Python `%` (`Int.fmod`) lands in `(b, 0]`. -/
theorem fmod_bounds_of_neg (a b : Int) (hb : b < 0) :
    b < a.fmod b ∧ a.fmod b ≤ 0 := by
  match a, b with
  | _, .ofNat n =>
    rw [show Int.ofNat n = (n : Int) from rfl] at hb
    omega
  | .ofNat 0, .negSucc n =>
    rw [show Int.fmod (.ofNat 0) (.negSucc n) = 0 from rfl, Int.negSucc_eq]
    omega
  | .ofNat (m + 1), .negSucc n =>
    have h1 : m % (n + 1) < n + 1 := Nat.mod_lt _ (Nat.succ_pos n)
    rw [show Int.fmod (.ofNat (m + 1)) (.negSucc n) = Int.subNatNat (m % (n + 1)) n from rfl,
      Int.subNatNat_eq_coe, Int.negSucc_eq]
    omega
  | .negSucc m, .negSucc n =>
    have h1 : (m + 1) % (n + 1) < n + 1 := Nat.mod_lt _ (Nat.succ_pos n)
    rw [show Int.fmod (.negSucc m) (.negSucc n) = -Int.ofNat ((m + 1) % (n + 1)) from rfl,
      show Int.ofNat ((m + 1) % (n + 1)) = (((m + 1) % (n + 1) : Nat) : Int) from rfl,
      Int.negSucc_eq]
    omega

/-- Truncated remainder: magnitude below the divisor and weak sign of the
dividend. -/
theorem tmod_sign_mag (a b : Int) (hb : b ≠ 0) :
    (a.tmod b).natAbs < b.natAbs ∧ (0 ≤ a → 0 ≤ a.tmod b) ∧
      (a ≤ 0 → a.tmod b ≤ 0) := by
  match a, b with
  | .ofNat m, .ofNat n =>
    have hn : n ≠ 0 := fun h => hb (by rw [h]; rfl)
    have h1 : m % n < n := Nat.mod_lt _ (Nat.pos_of_ne_zero hn)
    have h2 : m = 0 → m % n = 0 := fun h => by rw [h]; exact Nat.zero_mod n
    clear hb
    rw [show Int.tmod (.ofNat m) (.ofNat n) = Int.ofNat (m % n) from rfl]
    simp only [Int.ofNat_eq_coe]
    omega
  | .ofNat m, .negSucc n =>
    have h1 : m % (n + 1) < n + 1 := Nat.mod_lt _ (Nat.succ_pos n)
    have h2 : m = 0 → m % (n + 1) = 0 := fun h => by rw [h]; exact Nat.zero_mod _
    clear hb
    rw [show Int.tmod (.ofNat m) (.negSucc n) = Int.ofNat (m % (n + 1)) from rfl]
    simp only [Int.ofNat_eq_coe, Int.negSucc_eq]
    omega
  | .negSucc m, .ofNat n =>
    have hn : n ≠ 0 := fun h => hb (by rw [h]; rfl)
    have h1 : (m + 1) % n < n := Nat.mod_lt _ (Nat.pos_of_ne_zero hn)
    clear hb
    rw [show Int.tmod (.negSucc m) (.ofNat n) = -Int.ofNat ((m + 1) % n) from rfl]
    simp only [Int.ofNat_eq_coe, Int.negSucc_eq]
    omega
  | .negSucc m, .negSucc n =>
    have h1 : (m + 1) % (n + 1) < n + 1 := Nat.mod_lt _ (Nat.succ_pos n)
    clear hb
    rw [show Int.tmod (.negSucc m) (.negSucc n) = -Int.ofNat ((m + 1) % (n + 1)) from rfl]
    simp only [Int.ofNat_eq_coe, Int.negSucc_eq]
    omega

/-- C8: for numbers `a`, `b` with `b` nonzero, `(remainder a b)` returns the
truncated remainder: a value `r` that is zero or has the sign of the dividend
`a`, whose magnitude is below the magnitude of `b`, and with
`r = a - b * trunc(a / b)` (so `a - r` is an exact multiple of `b`).  The
source's adjustment loop terminates within its fuel on every such input. -/
theorem claim_C8_remainder_spec (a b : Int) (hb : b ≠ 0) :
    lisp_remainder a b = .ok (a.tmod b) ∧
    (a.tmod b = 0 ∨ (0 < a ∧ 0 < a.tmod b) ∨ (a < 0 ∧ a.tmod b < 0)) ∧
    (a.tmod b).natAbs < b.natAbs ∧
    a - a.tmod b = b * (a.tdiv b) := by
  have hqt := Int.tmod_add_tdiv a b
  have htm := tmod_sign_mag a b hb
  have hq := Int.fmod_add_fdiv a b
  set m := a.fmod b with hm
  set t := a.tmod b with ht
  have key : ∃ r k, remainderLoop 3 a b m = some r ∧
      (r = 0 ∨ (0 < a ∧ 0 < r) ∨ (a < 0 ∧ r < 0)) ∧
      r.natAbs < b.natAbs ∧ a - r = b * k := by
    rcases lt_or_gt_of_ne hb with hbneg | hbpos
    · have hbd := fmod_bounds_of_neg a b hbneg
      rcases lt_trichotomy a 0 with ha | ha | ha
      · refine ⟨m, a.fdiv b, ?_, by omega, by omega, by linarith⟩
        show remainderLoop (2 + 1) a b m = some m
        rw [remainderLoop_succ, if_neg (by omega)]
      · have hm0 : m = 0 := by rw [hm, ha]; exact Int.zero_fmod b
        refine ⟨m, a.fdiv b, ?_, by omega, by omega, by linarith⟩
        show remainderLoop (2 + 1) a b m = some m
        rw [remainderLoop_succ, if_neg (by omega)]
      · rcases eq_or_lt_of_le hbd.2 with hm0 | hmneg
        · refine ⟨m, a.fdiv b, ?_, by omega, by omega, by linarith⟩
          show remainderLoop (2 + 1) a b m = some m
          rw [remainderLoop_succ, if_neg (by omega)]
        · refine ⟨m - b, a.fdiv b + 1, ?_, by omega, by omega,
            by rw [mul_add]; linarith⟩
          show remainderLoop (2 + 1) a b m = some (m - b)
          rw [remainderLoop_succ, if_pos (by omega)]
          show remainderLoop (1 + 1) a b (m - b) = some (m - b)
          rw [remainderLoop_succ, if_neg (by omega)]
    · have hub : m < b := Int.fmod_lt_of_pos a hbpos
      have hlb : 0 ≤ m := Int.fmod_nonneg' a hbpos
      rcases lt_trichotomy a 0 with ha | ha | ha
      · rcases eq_or_lt_of_le hlb with hm0 | hmpos
        · refine ⟨m, a.fdiv b, ?_, by omega, by omega, by linarith⟩
          show remainderLoop (2 + 1) a b m = some m
          rw [remainderLoop_succ, if_neg (by omega)]
        · refine ⟨m - b, a.fdiv b + 1, ?_, by omega, by omega,
            by rw [mul_add]; linarith⟩
          show remainderLoop (2 + 1) a b m = some (m - b)
          rw [remainderLoop_succ, if_pos (by omega)]
          show remainderLoop (1 + 1) a b (m - b) = some (m - b)
          rw [remainderLoop_succ, if_neg (by omega)]
      · have hm0 : m = 0 := by rw [hm, ha]; exact Int.zero_fmod b
        refine ⟨m, a.fdiv b, ?_, by omega, by omega, by linarith⟩
        show remainderLoop (2 + 1) a b m = some m
        rw [remainderLoop_succ, if_neg (by omega)]
      · refine ⟨m, a.fdiv b, ?_, by omega, by omega, by linarith⟩
        show remainderLoop (2 + 1) a b m = some m
        rw [remainderLoop_succ, if_neg (by omega)]
  obtain ⟨r, k, hloop, hsign, hmag, hmult⟩ := key
  have hdvd : r - t = b * (a.tdiv b - k) := by
    rw [mul_sub]
    linarith
  have hrt : r = t := by
    obtain h1 := htm.1
    rcases Nat.eq_zero_or_pos (a.tdiv b - k).natAbs with hc0 | hcpos
    · have : a.tdiv b - k = 0 := Int.natAbs_eq_zero.mp hc0
      rw [this, mul_zero] at hdvd
      omega
    · exfalso
      have habs : (r - t).natAbs = b.natAbs * (a.tdiv b - k).natAbs := by
        rw [hdvd, Int.natAbs_mul]
      have hge : b.natAbs ≤ b.natAbs * (a.tdiv b - k).natAbs :=
        Nat.le_mul_of_pos_right _ hcpos
      rcases le_or_lt 0 a with ha | ha
      · have hr0 : 0 ≤ r := by rcases hsign with h | h | h <;> omega
        have ht0 : 0 ≤ t := htm.2.1 ha
        omega
      · have hr0 : r ≤ 0 := by rcases hsign with h | h | h <;> omega
        have ht0 : t ≤ 0 := htm.2.2 (le_of_lt ha)
        omega
  refine ⟨?_, by rw [← hrt]; exact hsign, by rw [← hrt]; exact hmag, by linarith⟩
  rw [lisp_remainder, if_neg hb, ← hm, hloop, hrt]

/-- Witness for C8 at `a = 7`, `b = -3`: the hypothesis `b ≠ 0` holds and
`(remainder 7 -3)` is `1` (sign of the dividend). -/
theorem claim_C8_remainder_spec_witness :
    lisp_remainder 7 (-3) = .ok ((7 : Int).tmod (-3)) ∧ (7 : Int).tmod (-3) = 1 :=
  ⟨(claim_C8_remainder_spec 7 (-3) (by decide)).1, by decide⟩

/-- C2: code-bug exhibit.  `check_formals`'s docstring promises to raise
unless the formals are "a lisp list of symbols", and the spec requires a
proper list of distinct Symbols; but the loop only walks the `Pair` spine
and never examines a non-`Pair` tail.  Evaluating `(lambda x x)` (formals a
bare symbol) and `(lambda (a . b) a)` (dotted formals) both succeed and
return a `LambdaProcedure` instead of raising. -/
theorem claim_C2_improper_formals_accepted :
    optimized_eval 20
        (.pair 0 (.pystr 0 "lambda")
          (.pair 1 (.pystr 1 "x") (.pair 2 (.pystr 2 "x") .nil)))
        0 false ⟨[⟨[], none⟩], []⟩
      = (⟨[⟨[], none⟩], []⟩,
         .ok (.lambdaP 0 (.pystr 1 "x") (.pair 2 (.pystr 2 "x") .nil) 0)) ∧
    optimized_eval 20
        (.pair 0 (.pystr 0 "lambda")
          (.pair 1 (.pair 2 (.pystr 1 "a") (.pystr 2 "b"))
            (.pair 3 (.pystr 3 "a") .nil)))
        0 false ⟨[⟨[], none⟩], []⟩
      = (⟨[⟨[], none⟩], []⟩,
         .ok (.lambdaP 0 (.pair 2 (.pystr 1 "a") (.pystr 2 "b"))
               (.pair 3 (.pystr 3 "a") .nil) 0)) := by
  constructor
  · decide
  · decide

/-- C6 counterexample: a host failure inside a built-in is replaced by the
bare `raise lispError`, so the surfaced interpreter error carries no
human-readable message (refuting the claim's "carries a human-readable
message"). -/
theorem claim_C6_counterexample :
    builtin_apply (fun _ _ => .error (.hostErr "ZeroDivisionError: division by zero"))
        false .nil 0 = .error (.lispErr none) ∧
    Err.carriesMsg (.lispErr none) = false := by
  constructor
  · rfl
  · rfl

/-- C6 (amended): with a proper argument list, every failure of
`BuiltinProcedure.apply` surfaces as a `lispError` (distinguishable from
host errors by type) but carries no message: any host-level (or even
interpreter-level) exception raised by the host function is coerced to a
bare `lispError`, discarding the original message. -/
theorem claim_C6_builtin_error_surface
    (fn : List Value → Option Nat → Except Err Value) (useEnv : Bool)
    (args : Value) (env : Nat) (h : lisp_listp args = true) :
    (∀ e, builtin_apply fn useEnv args env = .error e → e = .lispErr none) ∧
    (∀ e, fn (toPyList args) (if useEnv then some env else none) = .error e →
      builtin_apply fn useEnv args env = .error (.lispErr none)) := by
  unfold builtin_apply
  rw [h]
  simp only [Bool.true_eq_false, if_false]
  constructor
  · intro e he
    cases hfn : fn (toPyList args) (if useEnv then some env else none) with
    | ok v => rw [hfn] at he; exact absurd he (by simp)
    | error e0 => rw [hfn] at he; simpa using he.symm
  · intro e he
    rw [he]

/-- Witness for C6 at a concrete failing host function: the argument list
`nil` is a proper list and the coercion to a bare `lispError` happens. -/
theorem claim_C6_builtin_error_surface_witness :
    builtin_apply (fun _ _ => .error (.hostErr "TypeError")) true .nil 5
      = .error (.lispErr none) :=
  (claim_C6_builtin_error_surface (fun _ _ => .error (.hostErr "TypeError"))
    true .nil 5 (by decide)).2 (.hostErr "TypeError") rfl

/-- C3 counterexample: forcing a fresh promise memoizes and clears the
expression, but the environment reference is NOT dropped (the source never
clears `self.env`), refuting the claim's "drops both the expression
reference and the environment reference". -/
theorem claim_C3_counterexample :
    promise_evaluate 20 0
        ⟨[⟨[], none⟩],
         [⟨some (.pair 0 (.pystr 0 "quote") (.pair 1 (.pair 2 (.num 1) .nil) .nil)),
           some 0, none⟩]⟩
      = (⟨[⟨[], none⟩], [⟨none, some 0, some (.pair 2 (.num 1) .nil)⟩]⟩,
         .ok (.pair 2 (.num 1) .nil)) ∧
    (⟨none, some 0, some (.pair 2 (.num 1) .nil)⟩ : PromiseD).envRef ≠ none := by
  constructor
  · decide
  · decide

/-- C3 (amended): the first force of a promise evaluates the captured
expression in the captured environment; unless the result is Nil or a Pair
it raises an interpreter error; otherwise it memoizes the result and drops
the expression reference (the environment reference is retained); every
subsequent force returns the cached value with the heap untouched and
without re-evaluating (the result does not depend on the evaluator fuel).
`force` itself is `Promise.evaluate` behind a promise type check. -/
theorem claim_C3_promise_memoization (fuel pid : Nat) (σ σ' : State)
    (p : PromiseD) (e v : Value) (en : Nat) (hp : promiseAt σ pid = some p) :
    (p.expression = some e → p.envRef = some en →
      optimized_eval fuel e en false σ = (σ', .ok v) →
      (((v = .nil ∨ lisp_pairp v = true) →
         promise_evaluate fuel pid σ =
           (setPromise σ' pid ⟨none, some en, some v⟩, .ok v)) ∧
       (¬(v = .nil ∨ lisp_pairp v = true) →
         promise_evaluate fuel pid σ =
           (σ', .err (.lispErr (some
             ("result of forcing a promise should be a pair or nil, but was "
               ++ pyStr v))))))) ∧
    (p.expression = none → p.value = some v →
      promise_evaluate fuel pid σ = (σ, .ok v)) ∧
    lisp_force fuel (.promiseV pid) σ = promise_evaluate fuel pid σ := by
  refine ⟨?_, ?_, ?_⟩
  · intro hpe hen heval
    constructor
    · intro hok
      simp only [promise_evaluate, hp, hpe, hen, heval]
      rw [if_pos (by rcases hok with h | h <;> simp [h])]
    · intro hbad
      simp only [promise_evaluate, hp, hpe, hen, heval]
      rw [if_neg (by simp only [Bool.or_eq_true, decide_eq_true_eq]; exact hbad)]
  · intro hpe hval
    simp only [promise_evaluate, hp, hpe, hval]
  · rfl

/-- Witness for C3 on a concrete promise heap: forcing `(quote (1))`
memoizes (first conjunct applied with the hypotheses discharged), and
re-forcing the now-memoized promise returns the cache with any fuel. -/
theorem claim_C3_promise_memoization_witness :
    promise_evaluate 20 0
        ⟨[⟨[], none⟩],
         [⟨some (.pair 0 (.pystr 0 "quote") (.pair 1 (.pair 2 (.num 1) .nil) .nil)),
           some 0, none⟩]⟩
      = (setPromise
          ⟨[⟨[], none⟩],
           [⟨some (.pair 0 (.pystr 0 "quote") (.pair 1 (.pair 2 (.num 1) .nil) .nil)),
             some 0, none⟩]⟩ 0 ⟨none, some 0, some (.pair 2 (.num 1) .nil)⟩,
         .ok (.pair 2 (.num 1) .nil)) ∧
    promise_evaluate 3 0 ⟨[⟨[], none⟩], [⟨none, some 0, some (.num 7)⟩]⟩
      = (⟨[⟨[], none⟩], [⟨none, some 0, some (.num 7)⟩]⟩, .ok (.num 7)) := by
  constructor
  · exact ((claim_C3_promise_memoization 20 0
      ⟨[⟨[], none⟩],
       [⟨some (.pair 0 (.pystr 0 "quote") (.pair 1 (.pair 2 (.num 1) .nil) .nil)),
         some 0, none⟩]⟩
      ⟨[⟨[], none⟩],
       [⟨some (.pair 0 (.pystr 0 "quote") (.pair 1 (.pair 2 (.num 1) .nil) .nil)),
         some 0, none⟩]⟩
      ⟨some (.pair 0 (.pystr 0 "quote") (.pair 1 (.pair 2 (.num 1) .nil) .nil)),
        some 0, none⟩
      (.pair 0 (.pystr 0 "quote") (.pair 1 (.pair 2 (.num 1) .nil) .nil))
      (.pair 2 (.num 1) .nil) 0 (by decide)).1 rfl rfl (by decide)).1
      (by right; decide)
  · exact (claim_C3_promise_memoization 3 0
      ⟨[⟨[], none⟩], [⟨none, some 0, some (.num 7)⟩]⟩
      ⟨[⟨[], none⟩], [⟨none, some 0, some (.num 7)⟩]⟩
      ⟨none, some 0, some (.num 7)⟩ .nil (.num 7) 0 (by decide)).2.1 rfl rfl

/-- On a proper list, Python `len` (the pair-chain walk) succeeds. -/
theorem pairLen_ok (v : Value) (h : lisp_listp v = true) : ∃ n, pairLen v = .ok n := by
  induction v with
  | nil => exact ⟨0, rfl⟩
  | pair i a d iha ihd =>
    rw [lisp_listp] at h
    obtain ⟨n, hn⟩ := ihd h
    exact ⟨n + 1, by rw [pairLen, hn]⟩
  | _ => simp [lisp_listp] at h

/-- C9 counterexample: evaluating `(define x (begin (define y 1) z))` in an
empty global frame raises (`z` unbound) with no binding of `x`, but the
evaluation of the inner expression has already bound `y` — so the
environment is NOT "exactly what it was before the define form". -/
theorem claim_C9_counterexample :
    optimized_eval 30
        (.pair 0 (.pystr 0 "define") (.pair 1 (.pystr 1 "x")
          (.pair 2 (.pair 3 (.pystr 2 "begin")
            (.pair 4 (.pair 5 (.pystr 3 "define")
              (.pair 6 (.pystr 4 "y") (.pair 7 (.num 1) .nil)))
              (.pair 8 (.pystr 5 "z") .nil))) .nil)))
        0 false ⟨[⟨[], none⟩], []⟩
      = (⟨[⟨[("y", .num 1)], none⟩], []⟩,
         .err (.lispErr (some "unknown identifier: z"))) ∧
    (⟨[⟨[("y", .num 1)], none⟩], []⟩ : State) ≠ ⟨[⟨[], none⟩], []⟩ := by
  constructor
  · decide
  · decide

/-- C9 (amended): for `(define sym e)` with `sym` a Symbol, if evaluating
`e` raises, the define form itself installs no binding — the error
propagates with the heap exactly as `e`'s evaluation left it (in
particular `Frame.define` is never reached); side effects of evaluating
`e` itself may persist. -/
theorem claim_C9_define_no_binding_on_error (f env : Nat) (σ σ' : State)
    (er : Err) (i j k : Nat) (s : String) (e : Value)
    (hsym : lisp_symbolp (.pystr j s) = true)
    (heval : optimized_eval f e env false σ = (σ', .err er)) :
    do_define_form (f + 1) (.pair i (.pystr j s) (.pair k e .nil)) env σ
      = (σ', .err er) := by
  have hcf : check_form (.pair i (.pystr j s) (.pair k e .nil)) 2 none = .ok () := rfl
  have hcf2 : check_form (.pair i (.pystr j s) (.pair k e .nil)) 2 (some 2) = .ok () := rfl
  simp only [do_define_form, hcf, hcf2, hsym, if_true, heval]

/-- Witness for C9: `(define w z)` in an empty global frame, where `z` is
unbound, propagates the lookup error and leaves the heap unchanged. -/
theorem claim_C9_define_no_binding_on_error_witness :
    do_define_form 21 (.pair 0 (.pystr 1 "w") (.pair 2 (.pystr 3 "z") .nil)) 0
        ⟨[⟨[], none⟩], []⟩
      = (⟨[⟨[], none⟩], []⟩, .err (.lispErr (some "unknown identifier: z"))) :=
  claim_C9_define_no_binding_on_error 20 0 ⟨[⟨[], none⟩], []⟩ ⟨[⟨[], none⟩], []⟩
    (.lispErr (some "unknown identifier: z")) 0 1 2 "w" (.pystr 3 "z")
    (by decide) (by decide)

/-- C10: the misplaced-`else` error of `cond` is raised only when the loop
actually reaches the `else` clause: a clause with `else` as test and a
non-last position raises; a preceding clause with a truthy test returns its
body's value (its test value when the body is empty) without ever examining
the remaining clauses; a falsy test moves on to the remaining clauses. -/
theorem claim_C10_cond_else_reached_only (f env : Nat) :
    (∀ σ i ic ie cbody rest, rest ≠ .nil → lisp_listp cbody = true →
      do_cond_form (f + 1) (.pair i (.pair ic (.pystr ie "else") cbody) rest) env σ
        = (σ, .err (.lispErr (some "else must be last")))) ∧
    (∀ σ σ' i ic t cbody rest v, pyEqStr t "else" = false →
      lisp_listp cbody = true →
      optimized_eval f t env false σ = (σ', .ok v) → lisp_truep v = true →
      do_cond_form (f + 1) (.pair i (.pair ic t cbody) rest) env σ
        = (if cbody = .nil then (σ', .ok v) else eval_all f cbody env σ')) ∧
    (∀ σ σ' i ic t cbody rest v, pyEqStr t "else" = false →
      lisp_listp cbody = true →
      optimized_eval f t env false σ = (σ', .ok v) → lisp_falsep v = true →
      do_cond_form (f + 1) (.pair i (.pair ic t cbody) rest) env σ
        = do_cond_form f rest env σ') := by
  refine ⟨?_, ?_, ?_⟩
  · intro σ i ic ie cbody rest hrest hcb
    obtain ⟨n, hn⟩ := pairLen_ok cbody hcb
    have hcf : check_form (.pair ic (.pystr ie "else") cbody) 1 none = .ok () := by
      rw [check_form]
      simp only [lisp_listp, hcb, Bool.true_eq_false, if_false, lispLen, hn]
      rfl
    have hels : pyEqStr (.pystr ie "else") "else" = true := rfl
    simp only [do_cond_form, hcf, hels, if_true]
    rw [if_pos hrest]
    simp
  · intro σ σ' i ic t cbody rest v hne hcb heval htrue
    obtain ⟨n, hn⟩ := pairLen_ok cbody hcb
    have hcf : check_form (.pair ic t cbody) 1 none = .ok () := by
      rw [check_form]
      simp only [lisp_listp, hcb, Bool.true_eq_false, if_false, lispLen, hn]
      rfl
    simp only [do_cond_form, hcf, hne, Bool.false_eq_true, if_false, heval, htrue, if_true]
    simp only [lispLen, hn]
    cases cbody with
    | nil =>
      have : n = 0 := by
        rw [pairLen] at hn
        exact (Except.ok.injEq _ _).mp hn.symm
      subst this
      simp
    | pair ci ca cd =>
      have : ∃ m, n = m + 1 := by
        rw [pairLen] at hn
        cases hpl : pairLen cd with
        | ok m => rw [hpl] at hn; exact ⟨m, by simpa using hn.symm⟩
        | error e => rw [hpl] at hn; simp at hn
      obtain ⟨m, hm⟩ := this
      subst hm
      simp
    | _ => simp [lisp_listp] at hcb
  · intro σ σ' i ic t cbody rest v hne hcb heval hfalse
    obtain ⟨n, hn⟩ := pairLen_ok cbody hcb
    have hcf : check_form (.pair ic t cbody) 1 none = .ok () := by
      rw [check_form]
      simp only [lisp_listp, hcb, Bool.true_eq_false, if_false, lispLen, hn]
      rfl
    have hvfalse : v = .pybool false := by
      have := hfalse
      rw [lisp_falsep] at this
      simpa using this
    have hnt : lisp_truep v = false := by rw [hvfalse]; decide
    simp only [do_cond_form, hcf, hne, Bool.false_eq_true, if_false, heval, hnt]
    rw [if_neg (fun hh => Value.noConfusion hh)]

/-- Witness for C10: `(cond (1 2) (else 3) (else 4))` — the misplaced
`else` is never reached because the first clause's test `1` is truthy; the
cond returns `2`; and the first-conjunct instance shows the raise when the
`else` clause itself is at the head with a clause after it. -/
theorem claim_C10_cond_else_reached_only_witness :
    do_cond_form 21
        (.pair 0 (.pair 1 (.pystr 0 "else") (.pair 2 (.num 3) .nil))
          (.pair 3 (.pair 4 (.pystr 1 "else") (.pair 5 (.num 4) .nil)) .nil))
        0 ⟨[⟨[], none⟩], []⟩
      = (⟨[⟨[], none⟩], []⟩, .err (.lispErr (some "else must be last"))) ∧
    do_cond_form 21
        (.pair 0 (.pair 1 (.num 1) (.pair 2 (.num 2) .nil))
          (.pair 3 (.pair 4 (.pystr 1 "else") (.pair 5 (.num 4) .nil)) .nil))
        0 ⟨[⟨[], none⟩], []⟩
      = (if (.pair 2 (.num 2) .nil : Value) = .nil
          then ((⟨[⟨[], none⟩], []⟩ : State), ROut.ok (.num 1))
          else eval_all 20 (.pair 2 (.num 2) .nil) 0 ⟨[⟨[], none⟩], []⟩) := by
  constructor
  · exact (claim_C10_cond_else_reached_only 20 0).1 ⟨[⟨[], none⟩], []⟩ 0 1 0
      (.pair 2 (.num 3) .nil)
      (.pair 3 (.pair 4 (.pystr 1 "else") (.pair 5 (.num 4) .nil)) .nil)
      (by decide) (by decide)
  · exact (claim_C10_cond_else_reached_only 20 0).2.1 ⟨[⟨[], none⟩], []⟩
      ⟨[⟨[], none⟩], []⟩ 0 1 (.num 1) (.pair 2 (.num 2) .nil)
      (.pair 3 (.pair 4 (.pystr 1 "else") (.pair 5 (.num 4) .nil)) .nil)
      (.num 1) (by decide) (by decide) (by decide) (by decide)

/-- `isinstance(x, Thunk)`. -/
def isThunk : Value → Bool
  | .thunkV _ _ => true
  | _ => false

/-- The trampoline's `while` loop only exits with a non-`Thunk` result. -/
theorem trampoline_ok_not_thunk (fuel : Nat) : ∀ e env σ σ' v,
    trampoline fuel e env σ = (σ', .ok v) → isThunk v = false := by
  induction fuel with
  | zero =>
    intro e env σ σ' v h
    simp only [trampoline] at h
    simp at h
  | succ f ih =>
    intro e env σ σ' v h
    simp only [trampoline] at h
    rcases hstep : original_lisp_eval f e env σ with ⟨σ1, r⟩
    rw [hstep] at h
    cases r with
    | ok w =>
      cases w <;> first
        | exact ih _ _ _ _ _ h
        | (cases h; rfl)
    | err e0 => simp at h
    | timeout => simp at h

/-- C1: with `tail=True` a non-symbol, non-self-evaluating expression is
wrapped in a `Thunk` carrying exactly that expression and environment and no
recursion happens (no fuel is needed); the trampoline loop drives the
primitive `original_lisp_eval` until a non-`Thunk` value results; hence for
a symbol or self-evaluating expression (any `tail`), and for any expression
at the `tail=False` entry point, the optimized eval never returns a `Thunk`
to its caller. -/
theorem claim_C1_tail_thunk_trampoline :
    (∀ fuel e env σ, lisp_symbolp e = false → self_evaluating e = false →
      optimized_eval fuel e env true σ = (σ, .ok (.thunkV e env))) ∧
    (∀ fuel e env σ σ' v, trampoline fuel e env σ = (σ', .ok v) →
      isThunk v = false) ∧
    (∀ fuel e env tail σ σ' v,
      optimized_eval fuel e env tail σ = (σ', .ok v) →
      lisp_symbolp e = true ∨ self_evaluating e = true ∨ tail = false →
      isThunk v = false) := by
  refine ⟨?_, ?_, ?_⟩
  · intro fuel e env σ h1 h2
    rw [optimized_eval.eq_def, h1, h2]
    simp
  · intro fuel e env σ σ' v h
    exact trampoline_ok_not_thunk fuel e env σ σ' v h
  · intro fuel e env tail σ σ' v hres hside
    have hc : (tail && !lisp_symbolp e && !self_evaluating e) = false := by
      rcases hside with h | h | h <;> simp [h]
    rw [optimized_eval.eq_def, hc] at hres
    simp only [Bool.false_eq_true, if_false] at hres
    cases fuel with
    | zero => simp at hres
    | succ f => exact trampoline_ok_not_thunk f e env σ σ' v hres

/-- Witness for C1: `(quote 1)` in tail position becomes a thunk with zero
fuel; a number under `tail=True` (self-evaluating) comes back unwrapped. -/
theorem claim_C1_tail_thunk_trampoline_witness :
    optimized_eval 0 (.pair 0 (.pystr 0 "quote") (.pair 1 (.num 1) .nil)) 7 true
        ⟨[], []⟩
      = (⟨[], []⟩,
         .ok (.thunkV (.pair 0 (.pystr 0 "quote") (.pair 1 (.num 1) .nil)) 7)) ∧
    isThunk (.num 3) = false := by
  constructor
  · exact claim_C1_tail_thunk_trampoline.1 0
      (.pair 0 (.pystr 0 "quote") (.pair 1 (.num 1) .nil)) 7 ⟨[], []⟩
      (by decide) (by decide)
  · exact claim_C1_tail_thunk_trampoline.2.2 10 (.num 3) 0 true
      ⟨[⟨[], none⟩], []⟩ ⟨[⟨[], none⟩], []⟩ (.num 3) (by decide)
      (Or.inr (Or.inl (by decide)))

/-- Python `len` of a two-or-more-element operand list. -/
theorem lispLen_two_plus (i ri : Nat) (a ra rd : Value) (h : lisp_listp rd = true) :
    ∃ m, lispLen (.pair i a (.pair ri ra rd)) = .ok (m + 2) := by
  obtain ⟨m, hm⟩ := pairLen_ok rd h
  exact ⟨m, by rw [lispLen, pairLen, hm]⟩

/-- C4: `(and)` yields true and `(or)` yields false; `and` returns the
first operand value that is `False` without examining any later operand,
steps to the remaining operands on a truthy value, and hands the final
operand to the evaluator in tail position, returning its result; `or`
returns the first truthy operand value without examining any later
operand, steps on `False`, and likewise tail-evaluates the final operand.
(Later operands are syntactically absent from the short-circuit
conclusions, so they are never evaluated.) -/
theorem claim_C4_and_or_short_circuit (f env : Nat) :
    (∀ σ, do_and_form (f + 1) .nil env σ = (σ, .ok (.pybool true))) ∧
    (∀ σ, do_or_form (f + 1) .nil env σ = (σ, .ok (.pybool false))) ∧
    (∀ σ σ' i a ri ra rd, lisp_listp rd = true →
      optimized_eval f a env false σ = (σ', .ok (.pybool false)) →
      do_and_form (f + 1) (.pair i a (.pair ri ra rd)) env σ
        = (σ', .ok (.pybool false))) ∧
    (∀ σ σ' i a ri ra rd v, lisp_listp rd = true →
      optimized_eval f a env false σ = (σ', .ok v) → lisp_truep v = true →
      do_and_form (f + 1) (.pair i a (.pair ri ra rd)) env σ
        = do_and_form f (.pair ri ra rd) env σ') ∧
    (∀ σ i a, do_and_form (f + 1) (.pair i a .nil) env σ
        = optimized_eval f a env true σ) ∧
    (∀ σ σ' i a ri ra rd v, lisp_listp rd = true →
      optimized_eval f a env false σ = (σ', .ok v) → lisp_truep v = true →
      do_or_form (f + 1) (.pair i a (.pair ri ra rd)) env σ = (σ', .ok v)) ∧
    (∀ σ σ' i a ri ra rd, lisp_listp rd = true →
      optimized_eval f a env false σ = (σ', .ok (.pybool false)) →
      do_or_form (f + 1) (.pair i a (.pair ri ra rd)) env σ
        = do_or_form f (.pair ri ra rd) env σ') ∧
    (∀ σ i a, do_or_form (f + 1) (.pair i a .nil) env σ
        = optimized_eval f a env true σ) := by
  refine ⟨fun σ => rfl, fun σ => rfl, ?_, ?_, ?_, ?_, ?_, ?_⟩
  · intro σ σ' i a ri ra rd hlist heval
    obtain ⟨m, hm⟩ := lispLen_two_plus i ri a ra rd hlist
    have hd : decide (m + 2 = 1) = false := by simp
    simp only [do_and_form, hm]
    rw [if_neg (by omega)]
    rw [hd, heval]
    dsimp only
    rw [if_pos (show lisp_falsep (.pybool false) = true by decide)]
  · intro σ σ' i a ri ra rd v hlist heval htrue
    obtain ⟨m, hm⟩ := lispLen_two_plus i ri a ra rd hlist
    have hd : decide (m + 2 = 1) = false := by simp
    have hfalse : lisp_falsep v = false := by
      rw [lisp_truep] at htrue
      rw [lisp_falsep]
      simpa using htrue
    simp only [do_and_form, hm]
    rw [if_neg (by omega)]
    rw [hd, heval]
    dsimp only
    rw [hfalse]
    simp only [Bool.false_eq_true, if_false]
    rw [if_neg (by omega)]
  · intro σ i a
    rcases hres : optimized_eval f a env true σ with ⟨σ1, r⟩
    have hstep : do_and_form (f + 1) (.pair i a .nil) env σ
        = (match optimized_eval f a env true σ with
           | (σ1, ROut.ok evaled) =>
             if lisp_falsep evaled = true then (σ1, ROut.ok evaled)
             else if (1 : Nat) = 1 then (σ1, ROut.ok evaled)
             else do_and_form f .nil env σ1
           | other => other) := rfl
    rw [hstep, hres]
    cases r with
    | ok w =>
      dsimp only
      by_cases hw : lisp_falsep w = true
      · rw [if_pos hw]
      · rw [if_neg hw, if_pos rfl]
    | err e0 => rfl
    | timeout => rfl
  · intro σ σ' i a ri ra rd v hlist heval htrue
    obtain ⟨m, hm⟩ := lispLen_two_plus i ri a ra rd hlist
    have hd : decide (m + 2 = 1) = false := by simp
    simp only [do_or_form, hm]
    rw [if_neg (by omega)]
    rw [hd, heval]
    dsimp only
    rw [if_pos htrue]
  · intro σ σ' i a ri ra rd hlist heval
    obtain ⟨m, hm⟩ := lispLen_two_plus i ri a ra rd hlist
    have hd : decide (m + 2 = 1) = false := by simp
    simp only [do_or_form, hm]
    rw [if_neg (by omega)]
    rw [hd, heval]
    dsimp only
    rw [if_neg (show ¬ lisp_truep (.pybool false) = true by decide)]
    rw [if_neg (by omega)]
  · intro σ i a
    rcases hres : optimized_eval f a env true σ with ⟨σ1, r⟩
    have hstep : do_or_form (f + 1) (.pair i a .nil) env σ
        = (match optimized_eval f a env true σ with
           | (σ1, ROut.ok evaled) =>
             if lisp_truep evaled = true then (σ1, ROut.ok evaled)
             else if (1 : Nat) = 1 then (σ1, ROut.ok evaled)
             else do_or_form f .nil env σ1
           | other => other) := rfl
    rw [hstep, hres]
    cases r with
    | ok w =>
      dsimp only
      by_cases hw : lisp_truep w = true
      · rw [if_pos hw]
      · rw [if_neg hw, if_pos rfl]
    | err e0 => rfl
    | timeout => rfl

/-- Witness for C4: `(and 1 #f (car 2))`-style short-circuit — with a false
first-of-two operand the whole form is `#f` and the (arbitrary, even
ill-formed) remaining operand is untouched. -/
theorem claim_C4_and_or_short_circuit_witness :
    do_and_form 21 (.pair 0 (.pybool false)
        (.pair 1 (.pair 2 (.num 1) (.num 2)) .nil)) 0 ⟨[⟨[], none⟩], []⟩
      = (⟨[⟨[], none⟩], []⟩, .ok (.pybool false)) ∧
    do_or_form 21 (.pair 0 (.num 5)
        (.pair 1 (.pair 2 (.num 1) (.num 2)) .nil)) 0 ⟨[⟨[], none⟩], []⟩
      = (⟨[⟨[], none⟩], []⟩, .ok (.num 5)) := by
  constructor
  · exact (claim_C4_and_or_short_circuit 20 0).2.2.1 ⟨[⟨[], none⟩], []⟩
      ⟨[⟨[], none⟩], []⟩ 0 (.pybool false) 1 (.pair 2 (.num 1) (.num 2)) .nil
      (by decide) (by decide)
  · exact (claim_C4_and_or_short_circuit 20 0).2.2.2.2.2.1 ⟨[⟨[], none⟩], []⟩
      ⟨[⟨[], none⟩], []⟩ 0 (.num 5) 1 (.pair 2 (.num 1) (.num 2)) .nil (.num 5)
      (by decide) (by decide) (by decide)

/-- C7 counterexample: two distinct string objects with the same text are
`equal?` but not `eq?` — `eq?` is Python `is` on strings, not equality, so
"eq? coincides with equality on atoms" fails for strings. -/
theorem claim_C7_counterexample :
    lisp_stringp (.pystr 0 "\"a\"") = true ∧
    lisp_equalp (.pystr 0 "\"a\"") (.pystr 1 "\"a\"") = true ∧
    lisp_eqp (.pystr 0 "\"a\"") (.pystr 1 "\"a\"") = false := by
  refine ⟨?_, ?_, ?_⟩
  · decide
  · decide
  · decide

/-- C7 (amended): `(equal? x x)` is true for every value; `equal?` compares
pairs structurally and numbers numerically; `eq?` is identity on pairs,
numeric equality on numbers, name equality on symbols, value equality on
booleans and nil — but on strings it is object identity, not text
equality. -/
theorem claim_C7_equality_laws :
    (∀ x, lisp_equalp x x = true) ∧
    (∀ i j a b c d, lisp_equalp (.pair i a b) (.pair j c d)
        = (lisp_equalp a c && lisp_equalp b d)) ∧
    (∀ a b : Int, lisp_equalp (.num a) (.num b) = decide (a = b)) ∧
    (∀ i j a b c d, lisp_eqp (.pair i a b) (.pair j c d) = decide (i = j)) ∧
    (∀ a b : Int, lisp_eqp (.num a) (.num b) = decide (a = b)) ∧
    (∀ i j s t, lisp_symbolp (.pystr i s) = true →
      lisp_symbolp (.pystr j t) = true →
      lisp_eqp (.pystr i s) (.pystr j t) = decide (s = t)) ∧
    (∀ a b, lisp_eqp (.pybool a) (.pybool b) = decide (a = b)) ∧
    (lisp_eqp .nil .nil = true) ∧
    (∀ i j s t, lisp_stringp (.pystr i s) = true →
      lisp_stringp (.pystr j t) = true →
      lisp_eqp (.pystr i s) (.pystr j t) = decide (i = j)) := by
  refine ⟨?_, ?_, ?_, ?_, ?_, ?_, ?_, ?_, ?_⟩
  · intro x
    induction x with
    | pair i a b iha ihb => simp [lisp_equalp, iha, ihb]
    | pystr i s => simp [lisp_equalp, lisp_numberp, pyTypeTag, pyEq]
    | num n => simp [lisp_equalp, lisp_numberp, pyEq]
    | pybool b => simp [lisp_equalp, lisp_numberp, pyTypeTag, pyEq]
    | nil => decide
    | undefined => decide
    | builtinP i name u => simp [lisp_equalp, lisp_numberp, pyTypeTag, pyEq, pyIs]
    | lambdaP i fo bo e => simp [lisp_equalp, lisp_numberp, pyTypeTag, pyEq, pyIs]
    | muP i fo bo => simp [lisp_equalp, lisp_numberp, pyTypeTag, pyEq, pyIs]
    | macroP i fo bo e => simp [lisp_equalp, lisp_numberp, pyTypeTag, pyEq, pyIs]
    | promiseV p => simp [lisp_equalp, lisp_numberp, pyTypeTag, pyEq, pyIs]
    | thunkV e n => simp [lisp_equalp, lisp_numberp, pyTypeTag, pyEq, pyIs]
  · intro i j a b c d
    rfl
  · intro a b
    rfl
  · intro i j a b c d
    rfl
  · intro a b
    rfl
  · intro i j s t hs ht
    rw [lisp_eqp]
    rw [show (lisp_numberp (Value.pystr i s) && lisp_numberp (Value.pystr j t)) = false
      from rfl]
    rw [show (lisp_symbolp (Value.pystr i s) && lisp_symbolp (Value.pystr j t))
      = (lisp_symbolp (Value.pystr i s) && lisp_symbolp (Value.pystr j t)) from rfl,
      hs, ht]
    rfl
  · intro a b
    rfl
  · rfl
  · intro i j s t hs ht
    have hs2 : lisp_symbolp (.pystr i s) = false := by
      rw [lisp_stringp] at hs
      rw [lisp_symbolp, hs]
      rfl
    rw [lisp_eqp]
    rw [show (lisp_numberp (Value.pystr i s) && lisp_numberp (Value.pystr j t)) = false
      from rfl]
    rw [hs2]
    rfl

/-- Witness for C7 at concrete atoms: two symbol objects with the same name
are `eq?`; two string objects with the same text are not. -/
theorem claim_C7_equality_laws_witness :
    lisp_eqp (.pystr 0 "a") (.pystr 1 "a") = decide ("a" = "a") ∧
    lisp_eqp (.pystr 0 "\"b\"") (.pystr 1 "\"b\"") = decide ((0 : Nat) = 1) := by
  constructor
  · exact claim_C7_equality_laws.2.2.2.2.2.1 0 1 "a" "a" (by decide) (by decide)
  · exact claim_C7_equality_laws.2.2.2.2.2.2.2.2 0 1 "\"b\"" "\"b\""
      (by decide) (by decide)

/-! ## C5: `let` evaluates inits in the outer environment, binds in parallel -/

/-- A nil-terminated pair chain over the given elements (describes the
`formal`/`val` lists accumulated by `make_let_frame`). -/
def chainOf : List Value → Value → Value
  | [], t => t
  | v :: r, t => .pair 0 v (chainOf r t)

/-- The dict `make_child_frame` ends up building for a `let`: the collected
(name, init-value) pairs, bound in the (reversed) order the source loop
produces. -/
def letBindings (ps : List (Value × Value)) : List (String × Value) :=
  (ps.reverse).foldl (fun a p => defineBind a (symText p.1) p.2) []

/-- Spec-side relation (§4.3 "evaluate all init expressions in the outer
environment"): the init of each binding `(name e)` is evaluated with the
OUTER environment `env`, left to right, threading the heap from `σ` to
`σ'` and collecting the (name, value) pairs.  Fuel threading mirrors
`let_frame_loop` (one unit per binding). -/
inductive EvalInits (env : Nat) : Nat → Value → State → State → List (Value × Value) → Prop where
  | nil : ∀ fuel σ, EvalInits env fuel .nil σ σ []
  | cons : ∀ f ic ib ie name e rest σ σ1 σ2 w ps,
      optimized_eval f e env false σ = (σ1, .ok w) →
      EvalInits env f rest σ1 σ2 ps →
      EvalInits env (f + 1)
        (.pair ic (.pair ib name (.pair ie e .nil)) rest) σ σ2 ((name, w) :: ps)

/-- A bindings list admitting an `EvalInits` derivation is a proper list of
the recorded length. -/
theorem evalInits_facts {env F bindings σ σ' ps}
    (h : EvalInits env F bindings σ σ' ps) :
    lisp_listp bindings = true ∧ pairLen bindings = .ok ps.length ∧
      lispLen bindings = .ok ps.length := by
  induction h with
  | nil fuel σ0 => exact ⟨rfl, rfl, rfl⟩
  | cons f ic ib ie name e rest σ0 σ1 σ2 w ps0 heval hrest ih =>
    refine ⟨?_, ?_, ?_⟩
    · rw [lisp_listp]
      exact ih.1
    · rw [pairLen, ih.2.1]
      simp
    · rw [lispLen, ih.2.1]
      simp

theorem pairLen_chainOf (l : List Value) : pairLen (chainOf l .nil) = .ok l.length := by
  induction l with
  | nil => rfl
  | cons v r ih =>
    rw [chainOf, pairLen, ih]
    simp

theorem lispLen_chainOf (l : List Value) : lispLen (chainOf l .nil) = .ok l.length := by
  cases l with
  | nil => rfl
  | cons v r =>
    rw [chainOf, lispLen, pairLen_chainOf]
    simp

theorem chainOf_append (l : List Value) (v t0 : Value) :
    chainOf (l ++ [v]) t0 = chainOf l (.pair 0 v t0) := by
  induction l with
  | nil => rfl
  | cons w r ih => rw [List.cons_append, chainOf, chainOf, ih]

/-- The accumulator fold of `make_let_frame` builds the reversed chain. -/
theorem foldl_pair_chain (l : List Value) (t : Value) :
    l.foldl (fun acc v => Value.pair 0 v acc) t = chainOf l.reverse t := by
  induction l generalizing t with
  | nil => rfl
  | cons v r ih =>
    rw [List.foldl_cons, ih, List.reverse_cons, chainOf_append]

/-- `check_formals`' walk accepts a chain of fresh distinct symbols. -/
theorem checkFormalsGo_chain : ∀ (names : List Value) (formal : Value) (seen : List String),
    (∀ v ∈ names, lisp_symbolp v = true) →
    (names.map symText).Nodup →
    (∀ s ∈ names.map symText, s ∉ seen) →
    checkFormalsGo formal ((names.map symText).reverse ++ seen) = .ok () →
    checkFormalsGo (chainOf names formal) seen = .ok () := by
  intro names
  induction names with
  | nil =>
    intro formal seen _ _ _ hbase
    simpa using hbase
  | cons v r ih =>
    intro formal seen hsym hdup hdisj hbase
    rw [List.map_cons] at hdup
    have hdv : symText v ∉ r.map symText := (List.nodup_cons.mp hdup).1
    have hdr : (r.map symText).Nodup := (List.nodup_cons.mp hdup).2
    have hv : lisp_symbolp v = true := hsym v (by simp)
    have hnotin : seen.contains (symText v) = false := by
      have : symText v ∉ seen := hdisj (symText v) (by simp)
      simpa using this
    rw [chainOf, checkFormalsGo, hv]
    simp only [Bool.true_eq_false, if_false, hnotin]
    apply ih formal (symText v :: seen)
    · intro u hu
      exact hsym u (by simp [hu])
    · exact hdr
    · intro s hs
      simp only [List.mem_cons]
      push_neg
      constructor
      · intro he
        exact hdv (he ▸ hs)
      · exact hdisj s (by simp [hs])
    · have heq : ((v :: r).map symText).reverse ++ seen
          = (r.map symText).reverse ++ (symText v :: seen) := by
        simp
      rw [heq] at hbase
      exact hbase

/-- `make_child_frame`'s binding loop over matching chains produces the
fold of dict updates. -/
theorem childBindings_chain : ∀ (qs : List (Value × Value)) (acc : List (String × Value)),
    (∀ p ∈ qs, lisp_symbolp p.1 = true) →
    childBindings qs.length (chainOf (qs.map Prod.fst) .nil)
        (chainOf (qs.map Prod.snd) .nil) acc
      = .ok (qs.foldl (fun a p => defineBind a (symText p.1) p.2) acc) := by
  intro qs
  induction qs with
  | nil =>
    intro acc _
    rfl
  | cons p r ih =>
    intro acc hsym
    have hp : lisp_symbolp p.1 = true := hsym p (by simp)
    rcases p with ⟨name, w⟩
    cases name with
    | pystr idn s =>
      simp only [List.map_cons, List.length_cons, chainOf, childBindings]
      have := ih (defineBind acc s w) (fun q hq => hsym q (by simp [hq]))
      rw [this]
      rfl
    | _ => simp [lisp_symbolp] at hp

theorem lookupBind_defineBind_self : ∀ (l : List (String × Value)) k v,
    lookupBind (defineBind l k v) k = some v := by
  intro l
  induction l with
  | nil => intro k v; simp [defineBind, lookupBind]
  | cons kv r ih =>
    intro k v
    rcases kv with ⟨k0, v0⟩
    by_cases hk : k0 = k
    · simp [defineBind, hk, lookupBind]
    · simp only [defineBind, hk, if_false, lookupBind]
      exact ih k v

theorem lookupBind_defineBind_other : ∀ (l : List (String × Value)) k v k2,
    k2 ≠ k → lookupBind (defineBind l k v) k2 = lookupBind l k2 := by
  intro l
  induction l with
  | nil =>
    intro k v k2 hne
    simp only [defineBind, lookupBind]
    rw [if_neg (fun h => hne h.symm)]
  | cons kv r ih =>
    intro k v k2 hne
    rcases kv with ⟨k0, v0⟩
    by_cases hk : k0 = k
    · subst hk
      simp only [defineBind, if_pos rfl, lookupBind]
      rw [if_neg (fun h => hne h.symm), if_neg (fun h => hne h.symm)]
    · simp only [defineBind, hk, if_false, lookupBind]
      by_cases h2 : k0 = k2
      · rw [if_pos h2, if_pos h2]
      · rw [if_neg h2, if_neg h2]
        exact ih k v k2 hne

theorem lookup_foldl_not_mem : ∀ (qs : List (String × Value)) acc s,
    s ∉ qs.map Prod.fst →
    lookupBind (qs.foldl (fun a p => defineBind a p.1 p.2) acc) s = lookupBind acc s := by
  intro qs
  induction qs with
  | nil => intro acc s _; rfl
  | cons p r ih =>
    intro acc s hs
    rw [List.foldl_cons]
    rw [ih (defineBind acc p.1 p.2) s (fun h => hs (by simp [h]))]
    exact lookupBind_defineBind_other acc p.1 p.2 s
      (fun h => hs (by simp [h]))

theorem lookup_foldl_mem : ∀ (qs : List (String × Value)) acc s w,
    (s, w) ∈ qs → (qs.map Prod.fst).Nodup →
    lookupBind (qs.foldl (fun a p => defineBind a p.1 p.2) acc) s = some w := by
  intro qs
  induction qs with
  | nil => intro acc s w h _; simp at h
  | cons p r ih =>
    intro acc s w hmem hdup
    rw [List.foldl_cons]
    rcases List.mem_cons.mp hmem with heq | hr
    · have hp : p = (s, w) := heq.symm
      subst hp
      have hnot : s ∉ r.map Prod.fst := (List.nodup_cons.mp (by simpa using hdup)).1
      rw [lookup_foldl_not_mem r _ s hnot]
      exact lookupBind_defineBind_self acc s w
    · exact ih _ s w hr (List.nodup_cons.mp (by simpa using hdup)).2

/-- The `make_let_frame` loop, run over bindings whose inits evaluate as
recorded: it accumulates the reversed name/value chains and finishes with
`check_formals` and `make_child_frame` on the heap the inits produced. -/
theorem let_loop_spec (env : Nat) {F : Nat} {bindings : Value} {σ σ' : State}
    {ps : List (Value × Value)} (h : EvalInits env F bindings σ σ' ps) :
    ∀ formal val,
    let_frame_loop F ps.length bindings env σ formal val
      = (match check_formals (ps.foldl (fun acc p => Value.pair 0 p.1 acc) formal) with
         | .error e => (σ', .err e)
         | .ok _ => make_child_frame σ' env
             (ps.foldl (fun acc p => Value.pair 0 p.1 acc) formal)
             (ps.foldl (fun acc p => Value.pair 0 p.2 acc) val)) := by
  induction h with
  | nil fuel σ0 =>
    intro formal val
    cases fuel with
    | zero => rfl
    | succ f2 => rfl
  | cons f ic ib ie name e rest σ0 σ1 σ2 w ps0 heval hrest ih =>
    intro formal val
    have hstep : let_frame_loop (f + 1) (((name, w) :: ps0).length)
        (.pair ic (.pair ib name (.pair ie e .nil)) rest) env σ0 formal val
        = (match optimized_eval f e env false σ0 with
           | (σ3, .ok w2) =>
               let_frame_loop f ps0.length rest env σ3 (.pair 0 name formal)
                 (.pair 0 w2 val)
           | (σ3, .err er) => (σ3, .err er)
           | (σ3, .timeout) => (σ3, .timeout)) := rfl
    rw [hstep, heval]
    exact ih (.pair 0 name formal) (.pair 0 w val)

/-- C5: for a `let` whose init expressions evaluate (left to right, each in
the OUTER environment `env`, threading the heap from `σ` to `σ'`) to the
pairs `ps` with distinct symbol names, `make_let_frame` allocates exactly
one new child frame of `env` — created only after all inits have run, so no
binding of the same `let` is visible to any init — holding all the
bindings in parallel; and `do_let_form` evaluates its body as a sequence in
that frame. -/
theorem claim_C5_let_outer_env_parallel (env F : Nat) (bindings : Value)
    (σ σ' : State) (ps : List (Value × Value))
    (hev : EvalInits env F bindings σ σ' ps)
    (hsym : ∀ p ∈ ps, lisp_symbolp p.1 = true)
    (hdup : (ps.map fun p => symText p.1).Nodup) :
    make_let_frame (F + 1) bindings env σ
      = ({ frames := σ'.frames ++ [⟨letBindings ps, some env⟩],
           promises := σ'.promises }, .ok σ'.frames.length) ∧
    (∀ p ∈ ps, lookupBind (letBindings ps) (symText p.1) = some p.2) ∧
    (∀ i bi ba bd σ0, lisp_listp bd = true →
      do_let_form (F + 2) (.pair i bindings (.pair bi ba bd)) env σ0
        = (match make_let_frame (F + 1) bindings env σ0 with
           | (σ1, .ok letEnv) => eval_all (F + 1) (.pair bi ba bd) letEnv σ1
           | (σ1, .err e2) => (σ1, .err e2)
           | (σ1, .timeout) => (σ1, .timeout))) := by
  obtain ⟨hlp, hplen, hllen⟩ := evalInits_facts hev
  have hf : ps.foldl (fun acc p => Value.pair 0 p.1 acc) .nil
      = chainOf ((ps.reverse).map Prod.fst) .nil := by
    rw [show ps.foldl (fun acc p => Value.pair 0 p.1 acc) Value.nil
        = (ps.map Prod.fst).foldl (fun acc v => Value.pair 0 v acc) Value.nil
      from (List.foldl_map Prod.fst (fun acc v => Value.pair 0 v acc) ps .nil).symm]
    rw [foldl_pair_chain, ← List.map_reverse]
  have hv : ps.foldl (fun acc p => Value.pair 0 p.2 acc) .nil
      = chainOf ((ps.reverse).map Prod.snd) .nil := by
    rw [show ps.foldl (fun acc p => Value.pair 0 p.2 acc) Value.nil
        = (ps.map Prod.snd).foldl (fun acc v => Value.pair 0 v acc) Value.nil
      from (List.foldl_map Prod.snd (fun acc v => Value.pair 0 v acc) ps .nil).symm]
    rw [foldl_pair_chain, ← List.map_reverse]
  have hsymrev : ∀ v ∈ (ps.reverse).map Prod.fst, lisp_symbolp v = true := by
    intro v hv2
    obtain ⟨p, hp, hpv⟩ := List.mem_map.mp hv2
    exact hpv ▸ hsym p (List.mem_reverse.mp hp)
  have hduprev : (((ps.reverse).map Prod.fst).map symText).Nodup := by
    have he2 : (((ps.reverse).map Prod.fst).map symText)
        = (ps.map fun p => symText p.1).reverse := by
      rw [List.map_map, ← List.map_reverse]
      simp [Function.comp]
    rw [he2]
    exact (List.nodup_reverse).mpr hdup
  have hcf : check_formals (chainOf ((ps.reverse).map Prod.fst) .nil) = .ok () := by
    rw [check_formals]
    apply checkFormalsGo_chain _ _ [] hsymrev hduprev
    · intro s _ hs
      simp at hs
    · rfl
  have hmcf : make_child_frame σ' env (chainOf ((ps.reverse).map Prod.fst) .nil)
      (chainOf ((ps.reverse).map Prod.snd) .nil)
      = ({ frames := σ'.frames ++ [⟨letBindings ps, some env⟩],
           promises := σ'.promises }, .ok σ'.frames.length) := by
    rw [make_child_frame, lispLen_chainOf, lispLen_chainOf]
    simp only [List.length_map, List.length_reverse]
    rw [if_neg (by omega)]
    have hcb := childBindings_chain (ps.reverse)
      [] (fun p hp => hsym p (List.mem_reverse.mp hp))
    rw [List.length_reverse] at hcb
    rw [hcb]
    rfl
  refine ⟨?_, ?_, ?_⟩
  · have hm : make_let_frame (F + 1) bindings env σ
        = let_frame_loop F ps.length bindings env σ .nil .nil := by
      simp only [make_let_frame, hlp, hllen, Bool.true_eq_false, if_false]
    rw [hm, let_loop_spec env hev .nil .nil, hf, hv, hcf]
    exact hmcf
  · intro p hp
    have hlb : letBindings ps
        = ((ps.reverse).map (fun q => (symText q.1, q.2))).foldl
            (fun a q => defineBind a q.1 q.2) [] := by
      rw [letBindings, List.foldl_map]
    rw [hlb]
    apply lookup_foldl_mem
    · exact List.mem_map.mpr ⟨p, List.mem_reverse.mpr hp, rfl⟩
    · rw [List.map_map]
      have he3 : (List.map (Prod.fst ∘ fun q => (symText q.1, q.2)) ps.reverse)
          = (ps.map fun p => symText p.1).reverse := by
        rw [← List.map_reverse]
        simp [Function.comp]
      rw [he3]
      exact (List.nodup_reverse).mpr hdup
  · intro i bi ba bd σ0 hbd
    obtain ⟨m, hm2⟩ := pairLen_ok bd hbd
    have hcf3 : check_form (.pair i bindings (.pair bi ba bd)) 2 none = .ok () := by
      rw [check_form]
      simp only [lisp_listp, hbd, Bool.true_eq_false, if_false]
      rw [lispLen, pairLen, hm2]
      simp
    simp only [do_let_form, hcf3]

/-- Witness for C5: `(let ((x 1) (y 2)) ...)` in an empty global frame — the
inits evaluate in the outer frame 0, and one new frame with both bindings
(in the loop's reversed dict order) is allocated as frame 1. -/
theorem claim_C5_let_outer_env_parallel_witness :
    make_let_frame 6
        (.pair 0 (.pair 1 (.pystr 10 "x") (.pair 2 (.num 1) .nil))
          (.pair 3 (.pair 4 (.pystr 11 "y") (.pair 5 (.num 2) .nil)) .nil))
        0 ⟨[⟨[], none⟩], []⟩
      = (⟨[⟨[], none⟩, ⟨[("y", .num 2), ("x", .num 1)], some 0⟩], []⟩, .ok 1) ∧
    lookupBind (letBindings [(.pystr 10 "x", .num 1), (.pystr 11 "y", .num 2)]) "x"
      = some (.num 1) := by
  have hev : EvalInits 0 5
      (.pair 0 (.pair 1 (.pystr 10 "x") (.pair 2 (.num 1) .nil))
        (.pair 3 (.pair 4 (.pystr 11 "y") (.pair 5 (.num 2) .nil)) .nil))
      ⟨[⟨[], none⟩], []⟩ ⟨[⟨[], none⟩], []⟩
      [((.pystr 10 "x"), (.num 1)), ((.pystr 11 "y"), (.num 2))] := by
    refine EvalInits.cons 4 0 1 2 (.pystr 10 "x") (.num 1)
      (.pair 3 (.pair 4 (.pystr 11 "y") (.pair 5 (.num 2) .nil)) .nil)
      ⟨[⟨[], none⟩], []⟩ ⟨[⟨[], none⟩], []⟩ ⟨[⟨[], none⟩], []⟩ (.num 1)
      [((.pystr 11 "y"), (.num 2))] (by decide) ?_
    refine EvalInits.cons 3 3 4 5 (.pystr 11 "y") (.num 2) .nil
      ⟨[⟨[], none⟩], []⟩ ⟨[⟨[], none⟩], []⟩ ⟨[⟨[], none⟩], []⟩ (.num 2)
      [] (by decide) ?_
    exact EvalInits.nil 3 ⟨[⟨[], none⟩], []⟩
  constructor
  · exact (claim_C5_let_outer_env_parallel 0 5 _ _ _ _ hev (by decide) (by decide)).1
  · exact (claim_C5_let_outer_env_parallel 0 5 _ _ _ _ hev (by decide) (by decide)).2.1
      (.pystr 10 "x", .num 1) (by simp)
